import Mathlib

/-!
# A verification model of the hankslab_db local caching layer

This file is a shallow embedding of the local cache/synchronization layer of
`base_db.py` (class `LocalDB_Base`) together with the slice of `db_access.py`
that it calls.  Pandas tables are embedded as Lean lists of records; integer id
columns are `Nat`; file system state (one pickle per (kind, session) plus the
single index pickle) is explicit data threaded through every operation; the
remote database and the protocol-specific behavioral formatter are parameters
(`RemoteEnv`).  Exceptions raised by the Python code (failed remote fetches,
pandas `KeyError` on a missing column, `TypeError` on subscripting `None`)
are modelled with `Except`; mutations performed before an exception persist,
so each operation returns its final state alongside an `Except` result.

`sort_values` is embedded as a sort by the given key column(s); float-valued
payload columns (timestamps, signals) are carried as `Nat` shadows since no
property below depends on float arithmetic.
-/

namespace HanksDB

/-- Errors that the embedded Python code can raise: a remote fetch failure,
a pandas `KeyError` (selecting a column that a table does not have), and the
`TypeError` from subscripting `None`. -/
inductive DbErr where
  | fetchErr : DbErr
  | keyError : DbErr
  | typeError : DbErr
deriving Repr, DecidableEq

/-- One row of a unit table (`met.units` joined data).  `spikeTs` and
`trialStartTs` are the ℕ shadows of the `spike_timestamps` /
`trial_start_timestamps` columns (in µs when raw, in s once formatted);
all other payload columns are abstracted into `payload`. -/
structure UnitRow where
  unitid : Nat
  subjid : Nat
  sessid : Nat
  spikeTs : Nat
  trialStartTs : Nat
  payload : Nat
deriving Repr, DecidableEq

/-- A raw fiber-photometry row as returned by `db_access.get_fp_data` before
`_format_fp_data` runs: the id column is still called `id`, there is no
`side` column yet.  `ml` is the ML implant coordinate (the column `side` is
derived from its sign); the signal payload is abstracted into `sig`.
There is no `sessiondate` column in fp data. -/
structure FpRaw where
  id : Nat
  subjid : Nat
  sessid : Nat
  ml : Int
  sig : Nat
deriving Repr, DecidableEq

/-- The `side` column derived by `_format_fp_data`. -/
inductive Side where
  | left : Side
  | right : Side
deriving Repr, DecidableEq

/-- A formatted fiber-photometry row (after `_format_fp_data`): `id` renamed
to `fpid` and the `side` column added.  Columns: fpid, subjid, sessid, ML,
side, signal payload — still no `sessiondate` column. -/
structure FpRow where
  fpid : Nat
  subjid : Nat
  sessid : Nat
  ml : Int
  side : Side
  sig : Nat
deriving Repr, DecidableEq

/-- One behavioral trial row (`beh.sessions` × `beh.trials`): identifying
columns `sessid`, `subjid`, `sessiondate` plus the per-trial key `trial`;
every other (protocol-specific) column is abstracted into `payload`. -/
structure BehRow where
  sessid : Nat
  subjid : Nat
  sessiondate : Nat
  trial : Nat
  payload : Nat
deriving Repr, DecidableEq

/-- A row of the `units` index table: columns `unitid`, `subjid`, `sessid`. -/
structure UnitIdxRow where
  unitid : Nat
  subjid : Nat
  sessid : Nat
deriving Repr, DecidableEq

/-- A row of the `fp_data` index table: columns `fpid`, `subjid`, `sessid`. -/
structure FpIdxRow where
  fpid : Nat
  subjid : Nat
  sessid : Nat
deriving Repr, DecidableEq

/-- A row of the `sessions` index table: columns `sessid`, `subjid`,
`sessiondate`. -/
structure SessIdxRow where
  sessid : Nat
  subjid : Nat
  sessiondate : Nat
deriving Repr, DecidableEq

/-- The in-memory index table set `self.__local_data`: the three tables keyed
as 'units', 'fp_data' and 'sessions'. -/
structure LocalData where
  units : List UnitIdxRow
  fpData : List FpIdxRow
  sessions : List SessIdxRow
deriving Repr, DecidableEq

/-- The empty, correctly-columned index table set created by
`__load_local_data` when reconciliation is triggered. -/
def emptyLocalData : LocalData := ⟨[], [], []⟩

/-- On-disk state: the unit/fp/behavior partition pickles keyed by session id
(`unit_data_{sess}.pkl`, `fp_data_{sess}.pkl`, `sess_data_{sess}.pkl`) and the
single `local_data.pkl` index file. -/
structure DiskState where
  unitFiles : List (Nat × List UnitRow)
  fpFiles : List (Nat × List FpRow)
  behFiles : List (Nat × List BehRow)
  indexFile : Option LocalData
deriving Repr, DecidableEq

/-- The state of a `LocalDB_Base` instance: the disk, the in-memory index
table set, and the `save_locally` constructor flag. -/
structure DBState where
  disk : DiskState
  localData : LocalData
  saveLocally : Bool
deriving Repr, DecidableEq

/-- `path.exists` + `pd.read_pickle` on a partition directory: look the
session id up in the association list of persisted files (a directory never
holds two files for the same session id). -/
def readFile {α : Type} : List (Nat × α) → Nat → Option α
  | [], _ => none
  | p :: rest, k => if p.1 = k then some p.2 else readFile rest k

/-- `to_pickle`: overwrite the partition for session `k` if it exists,
otherwise create it. -/
def writeFile {α : Type} : List (Nat × α) → Nat → α → List (Nat × α)
  | [], k, v => [(k, v)]
  | p :: rest, k, v => if p.1 = k then (k, v) :: rest else p :: writeFile rest k v

/-- The non-strict order on a ℕ sort key, the order used by
`sort_values(column)`. -/
def keyLe {α : Type} (key : α → Nat) : α → α → Prop :=
  fun a b => key a ≤ key b

instance {α : Type} (key : α → Nat) : DecidableRel (keyLe key) :=
  fun a b => Nat.decLe (key a) (key b)

instance {α : Type} (key : α → Nat) : IsTotal α (keyLe key) :=
  ⟨fun a b => Nat.le_total (key a) (key b)⟩

instance {α : Type} (key : α → Nat) : IsTrans α (keyLe key) :=
  ⟨fun _ _ _ => Nat.le_trans⟩

/-- Lexicographic order on two ℕ sort keys, the order used by
`sort_values([col1, col2])`. -/
def keyLe2 {α : Type} (k1 k2 : α → Nat) : α → α → Prop :=
  fun a b => k1 a < k1 b ∨ (k1 a = k1 b ∧ k2 a ≤ k2 b)

instance {α : Type} (k1 k2 : α → Nat) : DecidableRel (keyLe2 k1 k2) :=
  fun _ _ => instDecidableOr

instance {α : Type} (k1 k2 : α → Nat) : IsTotal α (keyLe2 k1 k2) := by
  refine ⟨fun a b => ?_⟩
  rcases Nat.lt_trichotomy (k1 a) (k1 b) with h | h | h
  · exact Or.inl (Or.inl h)
  · rcases Nat.le_total (k2 a) (k2 b) with h2 | h2
    · exact Or.inl (Or.inr ⟨h, h2⟩)
    · exact Or.inr (Or.inr ⟨h.symm, h2⟩)
  · exact Or.inr (Or.inl h)

instance {α : Type} (k1 k2 : α → Nat) : IsTrans α (keyLe2 k1 k2) := by
  refine ⟨fun a b c hab hbc => ?_⟩
  rcases hab with hab | ⟨hab, hab2⟩
  · rcases hbc with hbc | ⟨hbc, _⟩
    · exact Or.inl (Nat.lt_trans hab hbc)
    · exact Or.inl (hbc ▸ hab)
  · rcases hbc with hbc | ⟨hbc, hbc2⟩
    · exact Or.inl (hab ▸ hbc)
    · exact Or.inr ⟨hab.trans hbc, hab2.trans hbc2⟩

/-- `sort_values(column)`: sort a table by one ℕ key. -/
def sortOn {α : Type} (key : α → Nat) (l : List α) : List α :=
  List.insertionSort (keyLe key) l

/-- `sort_values([col1, col2])`: sort a table lexicographically by two ℕ
keys. -/
def sortOn2 {α : Type} (k1 k2 : α → Nat) (l : List α) : List α :=
  List.insertionSort (keyLe2 k1 k2) l

/-- Python's `sorted` on a list of ids (duplicates kept). -/
def sortNat (l : List Nat) : List Nat := sortOn (fun x => x) l

/-- Sorted unique values of a list, as produced by numpy set routines and by
SQL `where id in (...)` row sets. -/
def dedupSorted (l : List Nat) : List Nat := (sortNat l).dedup

/-- `np.setdiff1d(a, b)`: sorted unique values of `a` that are not in `b`. -/
def setdiff1d (a b : List Nat) : List Nat :=
  (dedupSorted a).filter (fun x => decide (x ∉ b))

/-- `np.intersect1d(a, b)`: sorted unique values of `a` that are in `b`. -/
def intersect1d (a b : List Nat) : List Nat :=
  (dedupSorted a).filter (fun x => decide (x ∈ b))

/-- `drop_duplicates()`: keep the first occurrence of each row. -/
def dropDupAux {α : Type} [DecidableEq α] (seen : List α) : List α → List α
  | [] => []
  | a :: rest =>
    if a ∈ seen then dropDupAux seen rest else a :: dropDupAux (a :: seen) rest

/-- `drop_duplicates()` on a table. -/
def dropDuplicates {α : Type} [DecidableEq α] (l : List α) : List α :=
  dropDupAux [] l

/-- The grouped id→session resolution of `db_access.get_unit_sess_ids` /
`get_fp_sess_ids`: the SQL row set contains one `(sessid, id)` pair for each
requested id that exists remotely (`parent i = some s`), and pandas
`groupby('sessid')` produces the sessions in ascending order, each with the
sorted list of its requested ids. -/
def groupByParent (parent : Nat → Option Nat) (ids : List Nat) : List (Nat × List Nat) :=
  let pairs := (dedupSorted ids).filterMap (fun i => (parent i).map (fun s => (s, i)))
  (dedupSorted (pairs.map (fun p => p.1))).map
    (fun s => (s, (pairs.filter (fun p => p.1 == s)).map (fun p => p.2)))

/-- The remote database and protocol collaborators, as seen through
`db_access` and the abstract `_format_sess_data` method.  `unitSess` /
`fpSess` give the parent session of each remotely existing id (none for ids
that do not exist remotely); `fetchUnits` / `fetchFp` / `fetchSess` are the
row fetches `db_access.get_unit_data` / `get_fp_data` / `get_session_data`,
which may fail (transient remote failure); `formatSess` is the
protocol-specific `_format_sess_data`. -/
structure RemoteEnv where
  unitSess : Nat → Option Nat
  fetchUnits : List Nat → Except DbErr (List UnitRow)
  fpSess : Nat → Option Nat
  fetchFp : List Nat → Except DbErr (List FpRaw)
  fetchSess : Nat → Except DbErr (List BehRow)
  formatSess : List BehRow → List BehRow

/-- The trace of remote calls made during one `get` call: the id lists passed
to the row fetcher (`db_access.get_unit_data` / `get_fp_data` /
`get_session_data`) and the id lists passed to the parent-session resolution
(`db_access.get_unit_sess_ids` / `get_fp_sess_ids`). -/
structure FetchLog where
  fetched : List (List Nat)
  resolved : List (List Nat)
deriving Repr, DecidableEq

/-- The empty trace. -/
def emptyLog : FetchLog := ⟨[], []⟩

/-- Outcome of one `get` call: the final database state (mutations made
before an exception persist), the trace of remote calls, and either the
returned table or the exception raised. -/
structure RunResult (ρ : Type) where
  state : DBState
  log : FetchLog
  result : Except DbErr ρ

/-- `_format_unit_data`: timestamps are divided by 1e6 (µs → s); ℕ shadow of
the float division. -/
def formatUnitRow (r : UnitRow) : UnitRow :=
  { r with spikeTs := r.spikeTs / 1000000, trialStartTs := r.trialStartTs / 1000000 }

/-- `_format_fp_data`: rename `id` to `fpid` and derive the `side` column
from the sign of ML ('left' if ML > 0 else 'right'). -/
def formatFpRow (r : FpRaw) : FpRow :=
  ⟨r.id, r.subjid, r.sessid, r.ml, if r.ml > 0 then Side.left else Side.right, r.sig⟩

/-- `unit_data[['unitid', 'subjid', 'sessid']]` on one row. -/
def unitIdentityCols (r : UnitRow) : UnitIdxRow := ⟨r.unitid, r.subjid, r.sessid⟩

/-- `fp_data[['fpid', 'subjid', 'sessid']]` on one row. -/
def fpIdentityCols (r : FpRow) : FpIdxRow := ⟨r.fpid, r.subjid, r.sessid⟩

/-- `sess_data[['sessid', 'subjid', 'sessiondate']]` on one behavioral row. -/
def behIdentityCols (r : BehRow) : SessIdxRow := ⟨r.sessid, r.subjid, r.sessiondate⟩

/-- `sess_data[['sessid', 'subjid', 'sessiondate']]` applied to a table read
from an fp partition file: the fp table's columns are `fpid`, `subjid`,
`sessid` (plus data columns) and there is no `sessiondate` column, so the
column selection raises a pandas `KeyError` whatever the rows are. -/
def fpSessIdentityCols (_ : List FpRow) : Except DbErr (List SessIdxRow) :=
  Except.error DbErr.keyError

/-- `__update_local_units` on the table level: append the identity columns of
the new rows to the `units` index table and re-sort by `unitid` (no
deduplication is performed against the existing rows). -/
def updateLocalUnitsTable (ld : LocalData) (rows : List UnitIdxRow) : LocalData :=
  { ld with units := sortOn (fun r => r.unitid) (ld.units ++ rows) }

/-- `__update_local_fp_data` on the table level: append the identity columns
of the new rows to the `fp_data` index table and re-sort by `fpid`. -/
def updateLocalFpTable (ld : LocalData) (rows : List FpIdxRow) : LocalData :=
  { ld with fpData := sortOn (fun r => r.fpid) (ld.fpData ++ rows) }

/-- `__update_local_sessions` on the table level: drop duplicate identity
tuples within the new rows, append them to the `sessions` index table and
re-sort by `sessid` (no deduplication against the existing rows). -/
def updateLocalSessionsTable (ld : LocalData) (rows : List SessIdxRow) : LocalData :=
  { ld with sessions := sortOn (fun r => r.sessid) (ld.sessions ++ dropDuplicates rows) }

/-- `__save_local_data`: flush the in-memory index table set to
`local_data.pkl`, but only when `save_locally` is set. -/
def saveLocalData (st : DBState) : DBState :=
  if st.saveLocally then
    { st with disk := { st.disk with indexFile := some st.localData } }
  else st

/-- `__update_local_units(unit_data)` with the default `save=True`. -/
def updateLocalUnits (st : DBState) (newData : List UnitRow) : DBState :=
  saveLocalData
    { st with localData := updateLocalUnitsTable st.localData (newData.map unitIdentityCols) }

/-- `__update_local_fp_data(fp_data)` with the default `save=True`. -/
def updateLocalFp (st : DBState) (newData : List FpRow) : DBState :=
  saveLocalData
    { st with localData := updateLocalFpTable st.localData (newData.map fpIdentityCols) }

/-- `__update_local_sessions(sess_data)` with the default `save=True`. -/
def updateLocalSessions (st : DBState) (newData : List BehRow) : DBState :=
  saveLocalData
    { st with localData := updateLocalSessionsTable st.localData (newData.map behIdentityCols) }

/-- The body of the per-session loop of `get_behavior_data` (base_db.py
lines 94-113) for one requested session id: read the partition if it exists
and `reload` is off; otherwise fetch the session remotely, contribute nothing
if zero rows come back (`continue`), else format the rows, persist them when
`save_locally` is set, and update the sessions index.  Returns the updated
state and trace together with the rows this session contributes to the
result (or the exception raised). -/
def behSessStep (env : RemoteEnv) (reload : Bool) (sessId : Nat)
    (st : DBState) (log : FetchLog) : DBState × FetchLog × Except DbErr (List BehRow) :=
  match readFile st.disk.behFiles sessId, reload with
  | some sessData, false => (st, log, Except.ok sessData)
  | _, _ =>
    let log := { log with fetched := log.fetched ++ [[sessId]] }
    match env.fetchSess sessId with
    | Except.error e => (st, log, Except.error e)
    | Except.ok raw =>
      if raw.isEmpty then (st, log, Except.ok [])
      else
        let sessData := env.formatSess raw
        let st :=
          if st.saveLocally then
            { st with disk :=
                { st.disk with behFiles := writeFile st.disk.behFiles sessId sessData } }
          else st
        let st := updateLocalSessions st sessData
        (st, log, Except.ok sessData)

/-- The per-session loop of `get_behavior_data`: fold `behSessStep` over the
requested session ids, accumulating the contributed rows and aborting on the
first exception (mutations already made persist). -/
def getBehaviorDataLoop (env : RemoteEnv) (reload : Bool) :
    List Nat → DBState → FetchLog → List BehRow → RunResult (List BehRow)
  | [], st, log, acc => ⟨st, log, Except.ok acc⟩
  | sessId :: rest, st, log, acc =>
    match behSessStep env reload sessId st log with
    | (st, log, Except.error e) => ⟨st, log, Except.error e⟩
    | (st, log, Except.ok rows) =>
      getBehaviorDataLoop env reload rest st log (acc ++ rows)

/-- `get_behavior_data(sess_ids, reload)` (base_db.py lines 74-118): sort the
requested session ids (without deduplication), run the per-session loop, and
sort the accumulated rows by `(sessid, trial)` when nonempty. -/
def getBehaviorData (env : RemoteEnv) (st : DBState) (sessIds : List Nat)
    (reload : Bool) : RunResult (List BehRow) :=
  let ids := sortNat sessIds
  match getBehaviorDataLoop env reload ids st emptyLog [] with
  | ⟨st, log, Except.ok beh⟩ =>
    ⟨st, log, Except.ok (if beh.isEmpty then beh else sortOn2 (fun r => r.sessid) (fun r => r.trial) beh)⟩
  | r => r

/-- The body of the per-session loop of `get_unit_data` (base_db.py lines
198-232) for one parent session with its requested unit ids: read the
existing partition,
intersect the session's units with the missing set, and when the intersection
is nonempty fetch those units, format them, merge them into the partition
(dropping replaced rows first when `reload` is set), persist the partition
when `save_locally` is set, and update the units index; finally select from
the session partition the rows whose unit ids were requested.  If nothing is
missing for a session and its partition file is absent, Python subscripts
`None` and raises a `TypeError`. -/
def unitSessStep (env : RemoteEnv) (reload : Bool) (reqIds missing : List Nat)
    (sessId : Nat) (sessUnitIds : List Nat) (st : DBState) (log : FetchLog) :
    DBState × FetchLog × Except DbErr (List UnitRow) :=
  let sessData? := readFile st.disk.unitFiles sessId
  let missingSess := intersect1d sessUnitIds missing
  if missingSess.isEmpty then
    match sessData? with
    | none => (st, log, Except.error DbErr.typeError)
    | some part =>
      (st, log, Except.ok (part.filter (fun r => decide (r.unitid ∈ reqIds))))
  else
    let log := { log with fetched := log.fetched ++ [missingSess] }
    match env.fetchUnits missingSess with
    | Except.error e => (st, log, Except.error e)
    | Except.ok raw =>
      let newData := raw.map formatUnitRow
      let part :=
        match sessData? with
        | none => newData
        | some old =>
          let old :=
            if reload then
              old.filter (fun r => decide (r.unitid ∉ newData.map (fun n => n.unitid)))
            else old
          sortOn (fun r => r.unitid) (old ++ newData)
      let st :=
        if st.saveLocally then
          { st with disk :=
              { st.disk with unitFiles := writeFile st.disk.unitFiles sessId part } }
        else st
      let st := updateLocalUnits st newData
      (st, log, Except.ok (part.filter (fun r => decide (r.unitid ∈ reqIds))))

/-- The per-session loop of `get_unit_data`: fold `unitSessStep` over the
session groups, accumulating each session's selected rows and aborting on
the first exception (mutations already made persist). -/
def getUnitDataLoop (env : RemoteEnv) (reload : Bool) (reqIds missing : List Nat) :
    List (Nat × List Nat) → DBState → FetchLog → List UnitRow → RunResult (List UnitRow)
  | [], st, log, acc => ⟨st, log, Except.ok acc⟩
  | (sessId, sessUnitIds) :: rest, st, log, acc =>
    match unitSessStep env reload reqIds missing sessId sessUnitIds st log with
    | (st, log, Except.error e) => ⟨st, log, Except.error e⟩
    | (st, log, Except.ok rows) =>
      getUnitDataLoop env reload reqIds missing rest st log (acc ++ rows)

/-- `get_unit_data(unit_ids, reload)` (base_db.py lines 172-234): sort the
requested ids (without deduplication); the missing set is everything when
`reload` is set, else the set difference against the `units` index table;
resolve the parent session of every requested id (the full sorted list is
passed to `db_access.get_unit_sess_ids`); run the per-session loop; finally
`sort_values('unitid')`, which raises a `KeyError` on the column-less empty
frame produced when no session group contributed. -/
def getUnitData (env : RemoteEnv) (st : DBState) (unitIds : List Nat)
    (reload : Bool) : RunResult (List UnitRow) :=
  let ids := sortNat unitIds
  let missing :=
    if reload then ids
    else setdiff1d ids (st.localData.units.map (fun r => r.unitid))
  let groups := groupByParent env.unitSess ids
  match getUnitDataLoop env reload ids missing groups st ⟨[], [ids]⟩ [] with
  | ⟨st, log, Except.ok rows⟩ =>
    if groups.isEmpty then ⟨st, log, Except.error DbErr.keyError⟩
    else ⟨st, log, Except.ok (sortOn (fun r => r.unitid) rows)⟩
  | r => r

/-- The body of the per-session loop of `get_fp_data` (base_db.py lines
309-343) for one parent session, structurally identical to `unitSessStep`:
read the partition, intersect the session's fp ids with the missing set,
fetch/format/merge/persist when the intersection is nonempty, update the fp
index, and select the rows whose fp ids were requested. -/
def fpSessStep (env : RemoteEnv) (reload : Bool) (reqIds missing : List Nat)
    (sessId : Nat) (sessFpIds : List Nat) (st : DBState) (log : FetchLog) :
    DBState × FetchLog × Except DbErr (List FpRow) :=
  let sessData? := readFile st.disk.fpFiles sessId
  let missingSess := intersect1d sessFpIds missing
  if missingSess.isEmpty then
    match sessData? with
    | none => (st, log, Except.error DbErr.typeError)
    | some part =>
      (st, log, Except.ok (part.filter (fun r => decide (r.fpid ∈ reqIds))))
  else
    let log := { log with fetched := log.fetched ++ [missingSess] }
    match env.fetchFp missingSess with
    | Except.error e => (st, log, Except.error e)
    | Except.ok raw =>
      let newData := raw.map formatFpRow
      let part :=
        match sessData? with
        | none => newData
        | some old =>
          let old :=
            if reload then
              old.filter (fun r => decide (r.fpid ∉ newData.map (fun n => n.fpid)))
            else old
          sortOn (fun r => r.fpid) (old ++ newData)
      let st :=
        if st.saveLocally then
          { st with disk :=
              { st.disk with fpFiles := writeFile st.disk.fpFiles sessId part } }
        else st
      let st := updateLocalFp st newData
      (st, log, Except.ok (part.filter (fun r => decide (r.fpid ∈ reqIds))))

/-- The per-session loop of `get_fp_data`: fold `fpSessStep` over the session
groups, accumulating each session's selected rows and aborting on the first
exception (mutations already made persist). -/
def getFpDataLoop (env : RemoteEnv) (reload : Bool) (reqIds missing : List Nat) :
    List (Nat × List Nat) → DBState → FetchLog → List FpRow → RunResult (List FpRow)
  | [], st, log, acc => ⟨st, log, Except.ok acc⟩
  | (sessId, sessFpIds) :: rest, st, log, acc =>
    match fpSessStep env reload reqIds missing sessId sessFpIds st log with
    | (st, log, Except.error e) => ⟨st, log, Except.error e⟩
    | (st, log, Except.ok rows) =>
      getFpDataLoop env reload reqIds missing rest st log (acc ++ rows)

/-- `get_fp_data(fp_ids, reload)` (base_db.py lines 283-374) up to and
including the table-accumulation loop.  The source then reshapes the
accumulated table into a nested dictionary keyed by subject and session
(lines 345-374); that reshaping reads the accumulated table only — it touches
neither disk, index nor remote — so the embedding returns the accumulated
table itself, and raises the `KeyError` that `groupby('subjid')` raises on
the column-less empty frame produced when no session group contributed. -/
def getFpData (env : RemoteEnv) (st : DBState) (fpIds : List Nat)
    (reload : Bool) : RunResult (List FpRow) :=
  let ids := sortNat fpIds
  let missing :=
    if reload then ids
    else setdiff1d ids (st.localData.fpData.map (fun r => r.fpid))
  let groups := groupByParent env.fpSess ids
  match getFpDataLoop env reload ids missing groups st ⟨[], [ids]⟩ [] with
  | ⟨st, log, Except.ok rows⟩ =>
    if groups.isEmpty then ⟨st, log, Except.error DbErr.keyError⟩
    else ⟨st, log, Except.ok rows⟩
  | r => r

/-- Select a named column from the `fp_data` index table.  Its columns are
`fpid`, `subjid`, `sessid` (as created by `__load_local_data` and maintained
by `__update_local_fp_data`); selecting any other name raises a pandas
`KeyError`. -/
def fpIdxColumn (t : List FpIdxRow) (name : String) : Except DbErr (List Nat) :=
  if name = "fpid" then Except.ok (t.map (fun r => r.fpid))
  else if name = "subjid" then Except.ok (t.map (fun r => r.subjid))
  else if name = "sessid" then Except.ok (t.map (fun r => r.sessid))
  else Except.error DbErr.keyError

/-- `get_local_fp_data()` (base_db.py lines 394-403): calls
`self.get_fp_data(self.local_fp_data['unitid'])` — the id list is obtained by
selecting the column named `'unitid'` from the fp index table.  If that
selection raises, the call aborts with the error before any remote or disk
activity. -/
def getLocalFpData (env : RemoteEnv) (st : DBState) : RunResult (List FpRow) :=
  match fpIdxColumn st.localData.fpData "unitid" with
  | Except.error e => ⟨st, emptyLog, Except.error e⟩
  | Except.ok ids => getFpData env st ids false

/-- The Cold-Start Reconciler: the rebuild branch of `__load_local_data`
(base_db.py lines 444-465).  Starting from the empty index table set it folds
every unit partition through `__update_local_units`, then every **fp**
partition through `__update_local_sessions` (the source passes fp files to
the sessions updater, lines 455-458), then every behavior partition through
`__update_local_sessions`.  Selecting the sessions identity columns from an
fp table raises a `KeyError`, which the fold propagates. -/
def rebuildLocalData (disk : DiskState) : Except DbErr LocalData := do
  let ld0 := emptyLocalData
  let ld1 := disk.unitFiles.foldl
    (fun ld f => updateLocalUnitsTable ld (f.2.map unitIdentityCols)) ld0
  let ld2 ← disk.fpFiles.foldlM
    (fun ld f => do
      let cols ← fpSessIdentityCols f.2
      pure (updateLocalSessionsTable ld cols)) ld1
  let ld3 := disk.behFiles.foldl
    (fun ld f => updateLocalSessionsTable ld (f.2.map behIdentityCols)) ld2
  pure ld3

/-! ## Concrete instances used to exercise the model

A small remote database: units 101 and 102 belong to session 10, unit 103 to
session 20; fp recording 7 belongs to session 30; behavioral session 201 has
one trial row and every other session id has no rows remotely. -/

/-- A concrete remote environment over the small database above.  The row
fetches echo back one row per requested id (`payload` distinguishes fresh
rows from previously cached ones); the behavioral formatter is the identity. -/
def cEnvA : RemoteEnv where
  unitSess := fun i =>
    if i = 101 ∨ i = 102 then some 10 else if i = 103 then some 20 else none
  fetchUnits := fun ids =>
    Except.ok (ids.map (fun i => ⟨i, 5, if i = 103 then 20 else 10, 2000000, 3000000, 1000 + i⟩))
  fpSess := fun i => if i = 7 then some 30 else none
  fetchFp := fun ids => Except.ok (ids.map (fun i => ⟨i, 5, 30, 2, 40 + i⟩))
  fetchSess := fun s =>
    if s = 201 then Except.ok [⟨201, 5, 6, 1, 0⟩] else Except.ok []
  formatSess := id

/-- Same remote database as `cEnvA`, but the unit row fetch fails whenever
unit 103 is among the requested ids (a transient remote failure on session
20's fetch). -/
def cEnvFail : RemoteEnv where
  unitSess := cEnvA.unitSess
  fetchUnits := fun ids =>
    if 103 ∈ ids then Except.error DbErr.fetchErr
    else Except.ok (ids.map (fun i => ⟨i, 5, if i = 103 then 20 else 10, 2000000, 3000000, 1000 + i⟩))
  fpSess := cEnvA.fpSess
  fetchFp := cEnvA.fetchFp
  fetchSess := cEnvA.fetchSess
  formatSess := id

/-- A remote database in which unit ids and session ids are ordered
oppositely: unit 1 belongs to session 2 and unit 2 to session 1. -/
def cEnvOrd : RemoteEnv where
  unitSess := fun i => if i = 1 then some 2 else if i = 2 then some 1 else none
  fetchUnits := fun ids =>
    Except.ok (ids.map (fun i => ⟨i, 5, if i = 1 then 2 else 1, 0, 0, 0⟩))
  fpSess := fun _ => none
  fetchFp := fun _ => Except.ok []
  fetchSess := fun _ => Except.ok []
  formatSess := id

/-- A remote database with one behavioral session, id 7, holding two trial
rows. -/
def cEnvBeh : RemoteEnv where
  unitSess := fun _ => none
  fetchUnits := fun _ => Except.ok []
  fpSess := fun _ => none
  fetchFp := fun _ => Except.ok []
  fetchSess := fun s =>
    if s = 7 then Except.ok [⟨7, 5, 6, 1, 0⟩, ⟨7, 5, 6, 2, 0⟩] else Except.ok []
  formatSess := id

/-- An empty local database with `save_locally = True`. -/
def cSt0 : DBState := ⟨⟨[], [], [], none⟩, emptyLocalData, true⟩

/-- An empty local database with `save_locally = False`. -/
def cSt0NoSave : DBState := ⟨⟨[], [], [], none⟩, emptyLocalData, false⟩

/-- A local database in which units 101 and 102 (session 10) and fp
recording 7 (session 30) are already cached: their partitions are on disk and
they are recorded in the index tables. -/
def cStA : DBState :=
  ⟨⟨[(10, [⟨101, 5, 10, 2, 3, 101⟩, ⟨102, 5, 10, 2, 3, 102⟩])],
    [(30, [⟨7, 5, 30, 2, Side.left, 7⟩])],
    [],
    some ⟨[⟨101, 5, 10⟩, ⟨102, 5, 10⟩], [⟨7, 5, 30⟩], []⟩⟩,
   ⟨[⟨101, 5, 10⟩, ⟨102, 5, 10⟩], [⟨7, 5, 30⟩], []⟩,
   true⟩

/-- A disk holding exactly one fp partition (session 30, fp recording 7) and
nothing else. -/
def cDiskFp : DiskState := ⟨[], [(30, [⟨7, 5, 30, 2, Side.left, 47⟩])], [], none⟩

/-! ## Environment honesty predicates

The remote fetches of `db_access` answer a SQL `where id in (...)` query:
they return at most one row per requested id, with the id column echoing the
requested id, and return nothing for ids that do not exist remotely.  The
call sites below always pass deduplicated id lists, so honesty is only
assumed for those. -/

/-- The unit row fetch returns rows only for requested ids, at most one row
per id. -/
def honestUnitFetch (env : RemoteEnv) : Prop :=
  ∀ ids rows, ids.Nodup → env.fetchUnits ids = Except.ok rows →
    ((rows.map (fun r => r.unitid)) ⊆ ids ∧ (rows.map (fun r => r.unitid)).Nodup)

/-- The unit row fetch returns exactly one row per requested id, in request
order. -/
def exactUnitFetch (env : RemoteEnv) : Prop :=
  ∀ ids rows, ids.Nodup → env.fetchUnits ids = Except.ok rows →
    (rows.map (fun r => r.unitid)) = ids

/-- The fp row fetch returns rows only for requested ids, at most one row
per id. -/
def honestFpFetch (env : RemoteEnv) : Prop :=
  ∀ ids rows, ids.Nodup → env.fetchFp ids = Except.ok rows →
    ((rows.map (fun r => r.id)) ⊆ ids ∧ (rows.map (fun r => r.id)).Nodup)

/-! ## Basic lemmas about the table primitives -/

theorem sortOn_perm {α : Type} (key : α → Nat) (l : List α) :
    (sortOn key l).Perm l :=
  List.perm_insertionSort (keyLe key) l

theorem mem_sortOn {α : Type} {key : α → Nat} {l : List α} {a : α} :
    a ∈ sortOn key l ↔ a ∈ l :=
  (sortOn_perm key l).mem_iff

theorem sortOn_sorted {α : Type} (key : α → Nat) (l : List α) :
    List.Sorted (keyLe key) (sortOn key l) :=
  List.sorted_insertionSort (keyLe key) l

theorem sortOn2_perm {α : Type} (k1 k2 : α → Nat) (l : List α) :
    (sortOn2 k1 k2 l).Perm l :=
  List.perm_insertionSort (keyLe2 k1 k2) l

theorem sortOn2_sorted {α : Type} (k1 k2 : α → Nat) (l : List α) :
    List.Sorted (keyLe2 k1 k2) (sortOn2 k1 k2 l) :=
  List.sorted_insertionSort (keyLe2 k1 k2) l

theorem mem_sortNat {l : List Nat} {a : Nat} : a ∈ sortNat l ↔ a ∈ l :=
  mem_sortOn

theorem mem_dedupSorted {l : List Nat} {a : Nat} : a ∈ dedupSorted l ↔ a ∈ l := by
  unfold dedupSorted
  rw [List.mem_dedup, mem_sortNat]

theorem nodup_dedupSorted (l : List Nat) : (dedupSorted l).Nodup :=
  List.nodup_dedup (sortNat l)

theorem mem_setdiff1d {a : Nat} {l b : List Nat} :
    a ∈ setdiff1d l b ↔ a ∈ l ∧ a ∉ b := by
  unfold setdiff1d
  rw [List.mem_filter, mem_dedupSorted, decide_eq_true_iff]

theorem mem_intersect1d {a : Nat} {l b : List Nat} :
    a ∈ intersect1d l b ↔ a ∈ l ∧ a ∈ b := by
  unfold intersect1d
  rw [List.mem_filter, mem_dedupSorted, decide_eq_true_iff]

theorem nodup_intersect1d (l b : List Nat) : (intersect1d l b).Nodup :=
  (nodup_dedupSorted l).filter _

theorem readFile_writeFile_same {α : Type} (files : List (Nat × α)) (k : Nat) (v : α) :
    readFile (writeFile files k v) k = some v := by
  induction files with
  | nil => simp [readFile, writeFile]
  | cons p rest ih =>
    by_cases hp : p.1 = k
    · simp [readFile, writeFile, hp]
    · simp [readFile, writeFile, hp, ih]

theorem readFile_writeFile_ne {α : Type} (files : List (Nat × α)) (k k2 : Nat) (v : α)
    (h : k ≠ k2) : readFile (writeFile files k v) k2 = readFile files k2 := by
  induction files with
  | nil => simp [readFile, writeFile, h]
  | cons p rest ih =>
    by_cases hp : p.1 = k
    · simp [readFile, writeFile, hp, h, hp ▸ h]
    · by_cases hp2 : p.1 = k2
      · simp [readFile, writeFile, hp, hp2, Ne.symm h]
      · simp [readFile, writeFile, hp, hp2, ih]

/-! ## Lemmas about the id→session grouping -/

theorem mem_groupByParent {par : Nat → Option Nat} {ids : List Nat} {s : Nat}
    {g : List Nat} (h : (s, g) ∈ groupByParent par ids) {i : Nat} (hi : i ∈ g) :
    par i = some s ∧ i ∈ ids := by
  simp only [groupByParent, List.mem_map] at h
  obtain ⟨s', hs', heq⟩ := h
  injection heq with h1 h2
  subst h1
  subst h2
  simp only [List.mem_map, List.mem_filter, List.mem_filterMap,
    Option.map_eq_some', beq_iff_eq] at hi
  obtain ⟨pr, ⟨⟨j, hj, t, hparj, hjeq⟩, hfst⟩, hsnd⟩ := hi
  have hj2 : pr.2 = j := by rw [← hjeq]
  have ht : pr.1 = t := by rw [← hjeq]
  subst hsnd
  rw [hj2, ← hfst, ht]
  exact ⟨hparj, mem_dedupSorted.mp hj⟩

theorem groupByParent_fst_nodup (par : Nat → Option Nat) (ids : List Nat) :
    ((groupByParent par ids).map Prod.fst).Nodup := by
  simp only [groupByParent, List.map_map]
  have hmap : ∀ (f : Nat → List Nat) (l : List Nat),
      (l.map (Prod.fst ∘ fun s => (s, f s))) = l := by
    intro f l
    induction l with
    | nil => rfl
    | cons a t ih => simp only [List.map_cons, Function.comp_apply, ih]
  rw [hmap]
  exact nodup_dedupSorted _

theorem groupByParent_pairwise (par : Nat → Option Nat) (ids : List Nat) :
    List.Pairwise (fun a b : Nat × List Nat => ∀ i, i ∈ a.2 → i ∉ b.2)
      (groupByParent par ids) := by
  have hfst := groupByParent_fst_nodup par ids
  rw [List.Nodup, List.pairwise_map] at hfst
  refine hfst.imp_of_mem ?_
  intro a b ha hb hne i hia hib
  have h1 := @mem_groupByParent par ids a.1 a.2 (by simpa using ha) i hia
  have h2 := @mem_groupByParent par ids b.1 b.2 (by simpa using hb) i hib
  exact hne (Option.some.inj (h1.1.symm.trans h2.1))

theorem groupByParent_congr (par : Nat → Option Nat) {ids ids' : List Nat}
    (h : dedupSorted ids = dedupSorted ids') :
    groupByParent par ids = groupByParent par ids' := by
  simp only [groupByParent, h]

/-! ## Projection lemmas for the index writers -/

theorem saveLocalData_localData (st : DBState) :
    (saveLocalData st).localData = st.localData := by
  unfold saveLocalData
  split <;> rfl

theorem saveLocalData_saveLocally (st : DBState) :
    (saveLocalData st).saveLocally = st.saveLocally := by
  unfold saveLocalData
  split <;> rfl

theorem saveLocalData_unitFiles (st : DBState) :
    (saveLocalData st).disk.unitFiles = st.disk.unitFiles := by
  unfold saveLocalData
  split <;> rfl

theorem saveLocalData_fpFiles (st : DBState) :
    (saveLocalData st).disk.fpFiles = st.disk.fpFiles := by
  unfold saveLocalData
  split <;> rfl

theorem saveLocalData_behFiles (st : DBState) :
    (saveLocalData st).disk.behFiles = st.disk.behFiles := by
  unfold saveLocalData
  split <;> rfl

theorem saveLocalData_disk_false (st : DBState) (h : st.saveLocally = false) :
    (saveLocalData st).disk = st.disk := by
  unfold saveLocalData
  rw [h]
  rfl

theorem updateLocalUnits_localData (st : DBState) (nd : List UnitRow) :
    (updateLocalUnits st nd).localData
      = updateLocalUnitsTable st.localData (nd.map unitIdentityCols) := by
  unfold updateLocalUnits
  rw [saveLocalData_localData]

theorem updateLocalUnits_unitFiles (st : DBState) (nd : List UnitRow) :
    (updateLocalUnits st nd).disk.unitFiles = st.disk.unitFiles := by
  unfold updateLocalUnits
  rw [saveLocalData_unitFiles]

theorem updateLocalUnits_fpFiles (st : DBState) (nd : List UnitRow) :
    (updateLocalUnits st nd).disk.fpFiles = st.disk.fpFiles := by
  unfold updateLocalUnits
  rw [saveLocalData_fpFiles]

theorem updateLocalUnits_behFiles (st : DBState) (nd : List UnitRow) :
    (updateLocalUnits st nd).disk.behFiles = st.disk.behFiles := by
  unfold updateLocalUnits
  rw [saveLocalData_behFiles]

theorem updateLocalUnits_saveLocally (st : DBState) (nd : List UnitRow) :
    (updateLocalUnits st nd).saveLocally = st.saveLocally := by
  unfold updateLocalUnits
  rw [saveLocalData_saveLocally]

theorem updateLocalUnitsTable_ids_perm (ld : LocalData) (rows : List UnitIdxRow) :
    ((updateLocalUnitsTable ld rows).units.map (fun r => r.unitid)).Perm
      ((ld.units ++ rows).map (fun r => r.unitid)) := by
  unfold updateLocalUnitsTable
  exact (sortOn_perm _ _).map _

theorem newUnitData_ids (raw : List UnitRow) :
    ((raw.map formatUnitRow).map unitIdentityCols).map (fun r => r.unitid)
      = raw.map (fun r => r.unitid) := by
  simp only [List.map_map]
  rfl

/-! ## Characterization lemmas for the unit-session step -/

theorem unitSessStep_resolved (env : RemoteEnv) (reload : Bool)
    (reqIds missing : List Nat) (sid : Nat) (g : List Nat) (st : DBState) (log : FetchLog) :
    (unitSessStep env reload reqIds missing sid g st log).2.1.resolved = log.resolved := by
  simp only [unitSessStep]
  split
  · split <;> rfl
  · split <;> rfl

theorem unitSessStep_fetched (env : RemoteEnv) (reload : Bool)
    (reqIds missing : List Nat) (sid : Nat) (g : List Nat) (st : DBState) (log : FetchLog) :
    (unitSessStep env reload reqIds missing sid g st log).2.1.fetched = log.fetched ∨
    (unitSessStep env reload reqIds missing sid g st log).2.1.fetched
      = log.fetched ++ [intersect1d g missing] := by
  simp only [unitSessStep]
  split
  · split <;> exact Or.inl rfl
  · split <;> exact Or.inr rfl

theorem unitSessStep_localData (env : RemoteEnv) (reload : Bool)
    (reqIds missing : List Nat) (sid : Nat) (g : List Nat) (st : DBState) (log : FetchLog) :
    (unitSessStep env reload reqIds missing sid g st log).1.localData = st.localData ∨
    ∃ raw, env.fetchUnits (intersect1d g missing) = Except.ok raw ∧
      (unitSessStep env reload reqIds missing sid g st log).1.localData
        = updateLocalUnitsTable st.localData
            ((raw.map formatUnitRow).map unitIdentityCols) := by
  simp only [unitSessStep]
  split
  · split <;> exact Or.inl rfl
  · split
    · exact Or.inl rfl
    · rename_i raw hraw
      refine Or.inr ⟨raw, hraw, ?_⟩
      rw [updateLocalUnits_localData]
      split <;> rfl

theorem unitSessStep_saveLocally (env : RemoteEnv) (reload : Bool)
    (reqIds missing : List Nat) (sid : Nat) (g : List Nat) (st : DBState) (log : FetchLog) :
    (unitSessStep env reload reqIds missing sid g st log).1.saveLocally = st.saveLocally := by
  simp only [unitSessStep]
  split
  · split <;> rfl
  · split
    · rfl
    · rw [updateLocalUnits_saveLocally]
      split <;> rfl

theorem unitSessStep_files (env : RemoteEnv) (reload : Bool)
    (reqIds missing : List Nat) (sid : Nat) (g : List Nat) (st : DBState) (log : FetchLog) :
    (∀ k, k ≠ sid →
      readFile (unitSessStep env reload reqIds missing sid g st log).1.disk.unitFiles k
        = readFile st.disk.unitFiles k) ∧
    (unitSessStep env reload reqIds missing sid g st log).1.disk.fpFiles = st.disk.fpFiles ∧
    (unitSessStep env reload reqIds missing sid g st log).1.disk.behFiles = st.disk.behFiles := by
  simp only [unitSessStep]
  split
  · split <;> exact ⟨fun k _ => rfl, rfl, rfl⟩
  · split
    · exact ⟨fun k _ => rfl, rfl, rfl⟩
    · constructor
      · intro k hk
        rw [updateLocalUnits_unitFiles]
        split
        · exact readFile_writeFile_ne _ _ _ _ (Ne.symm hk)
        · rfl
      · constructor
        · rw [updateLocalUnits_fpFiles]
          split <;> rfl
        · rw [updateLocalUnits_behFiles]
          split <;> rfl

theorem unitSessStep_disk_noSave (env : RemoteEnv) (reload : Bool)
    (reqIds missing : List Nat) (sid : Nat) (g : List Nat) (st : DBState) (log : FetchLog)
    (h : st.saveLocally = false) :
    (unitSessStep env reload reqIds missing sid g st log).1.disk = st.disk := by
  simp only [unitSessStep]
  split
  · split <;> rfl
  · split
    · rfl
    · unfold updateLocalUnits
      rw [h]
      simp only [Bool.false_eq_true, if_false]
      exact saveLocalData_disk_false _ (by rw [h])

/-! ## Characterization lemmas for the unit-session loop -/

theorem unitSessStep_fetchError (env : RemoteEnv) (reload : Bool)
    (reqIds missing : List Nat) (sid : Nat) (g : List Nat) (st : DBState) (log : FetchLog)
    {e : DbErr} (hne : ¬ (intersect1d g missing).isEmpty = true)
    (hf : env.fetchUnits (intersect1d g missing) = Except.error e) :
    unitSessStep env reload reqIds missing sid g st log
      = (st, { log with fetched := log.fetched ++ [intersect1d g missing] },
          Except.error e) := by
  simp only [unitSessStep]
  rw [if_neg hne, hf]

theorem unitSessStep_ok_nonempty (env : RemoteEnv) (reload : Bool)
    (reqIds missing : List Nat) (sid : Nat) (g : List Nat) (st : DBState) (log : FetchLog)
    {st1 : DBState} {log1 : FetchLog} {rows : List UnitRow}
    (hne : ¬ (intersect1d g missing).isEmpty = true)
    (hstep : unitSessStep env reload reqIds missing sid g st log = (st1, log1, Except.ok rows)) :
    ∃ raw, env.fetchUnits (intersect1d g missing) = Except.ok raw ∧
      st1.localData = updateLocalUnitsTable st.localData
        ((raw.map formatUnitRow).map unitIdentityCols) := by
  simp only [unitSessStep] at hstep
  rw [if_neg hne] at hstep
  rcases hraw : env.fetchUnits (intersect1d g missing) with e | raw
  · rw [hraw] at hstep
    injection hstep with h1 h2
    injection h2 with h2 h3
    simp at h3
  · rw [hraw] at hstep
    refine ⟨raw, rfl, ?_⟩
    injection hstep with h1 h2
    rw [← h1, updateLocalUnits_localData]
    split <;> rfl

theorem getUnitDataLoop_cons_error (env : RemoteEnv) (reload : Bool)
    (reqIds missing : List Nat) (sid : Nat) (g : List Nat)
    (rest : List (Nat × List Nat)) (st : DBState) (log : FetchLog) (acc : List UnitRow)
    {st1 : DBState} {log1 : FetchLog} {e : DbErr}
    (hstep : unitSessStep env reload reqIds missing sid g st log
      = (st1, log1, Except.error e)) :
    getUnitDataLoop env reload reqIds missing ((sid, g) :: rest) st log acc
      = ⟨st1, log1, Except.error e⟩ := by
  simp only [getUnitDataLoop]
  rw [hstep]

theorem getUnitDataLoop_cons_ok (env : RemoteEnv) (reload : Bool)
    (reqIds missing : List Nat) (sid : Nat) (g : List Nat)
    (rest : List (Nat × List Nat)) (st : DBState) (log : FetchLog) (acc : List UnitRow)
    {st1 : DBState} {log1 : FetchLog} {rows : List UnitRow}
    (hstep : unitSessStep env reload reqIds missing sid g st log
      = (st1, log1, Except.ok rows)) :
    getUnitDataLoop env reload reqIds missing ((sid, g) :: rest) st log acc
      = getUnitDataLoop env reload reqIds missing rest st1 log1 (acc ++ rows) := by
  simp only [getUnitDataLoop]
  rw [hstep]

theorem getUnitDataLoop_append_ok (env : RemoteEnv) (reload : Bool)
    (reqIds missing : List Nat) (gs1 gs2 : List (Nat × List Nat))
    (st : DBState) (log : FetchLog) (acc : List UnitRow)
    {st' : DBState} {log' : FetchLog} {acc' : List UnitRow}
    (h : getUnitDataLoop env reload reqIds missing gs1 st log acc
      = ⟨st', log', Except.ok acc'⟩) :
    getUnitDataLoop env reload reqIds missing (gs1 ++ gs2) st log acc
      = getUnitDataLoop env reload reqIds missing gs2 st' log' acc' := by
  induction gs1 generalizing st log acc with
  | nil =>
    simp only [getUnitDataLoop] at h
    injection h with h1 h2 h3
    injection h3 with h3
    rw [List.nil_append, h1, h2, h3]
  | cons p rest ih =>
    obtain ⟨sid, g⟩ := p
    rcases hstep : unitSessStep env reload reqIds missing sid g st log with ⟨st1, log1, res⟩
    cases res with
    | error e =>
      rw [getUnitDataLoop_cons_error env reload reqIds missing sid g rest st log acc hstep] at h
      injection h with h1 h2 h3
      simp at h3
    | ok rows =>
      rw [getUnitDataLoop_cons_ok env reload reqIds missing sid g rest st log acc hstep] at h
      rw [List.cons_append,
        getUnitDataLoop_cons_ok env reload reqIds missing sid g (rest ++ gs2) st log acc hstep]
      exact ih _ _ _ h

theorem getUnitDataLoop_resolved (env : RemoteEnv) (reload : Bool)
    (reqIds missing : List Nat) (gs : List (Nat × List Nat))
    (st : DBState) (log : FetchLog) (acc : List UnitRow) :
    (getUnitDataLoop env reload reqIds missing gs st log acc).log.resolved
      = log.resolved := by
  induction gs generalizing st log acc with
  | nil => rfl
  | cons p rest ih =>
    obtain ⟨sid, g⟩ := p
    have hres := unitSessStep_resolved env reload reqIds missing sid g st log
    rcases hstep : unitSessStep env reload reqIds missing sid g st log with ⟨st1, log1, res⟩
    rw [hstep] at hres
    cases res with
    | error e =>
      rw [getUnitDataLoop_cons_error env reload reqIds missing sid g rest st log acc hstep]
      exact hres
    | ok rows =>
      rw [getUnitDataLoop_cons_ok env reload reqIds missing sid g rest st log acc hstep, ih]
      exact hres

theorem getUnitDataLoop_fetched (env : RemoteEnv) (reload : Bool)
    (reqIds missing : List Nat) (gs : List (Nat × List Nat))
    (st : DBState) (log : FetchLog) (acc : List UnitRow) {l : List Nat}
    (h : l ∈ (getUnitDataLoop env reload reqIds missing gs st log acc).log.fetched) :
    l ∈ log.fetched ∨ ∃ p ∈ gs, l = intersect1d p.2 missing := by
  induction gs generalizing st log acc with
  | nil => exact Or.inl h
  | cons p rest ih =>
    obtain ⟨sid, g⟩ := p
    have hfet := unitSessStep_fetched env reload reqIds missing sid g st log
    rcases hstep : unitSessStep env reload reqIds missing sid g st log with ⟨st1, log1, res⟩
    rw [hstep] at hfet
    have hlog1 : ∀ l2, l2 ∈ log1.fetched →
        l2 ∈ log.fetched ∨ ∃ p ∈ (sid, g) :: rest, l2 = intersect1d p.2 missing := by
      intro l2 hl2
      rcases hfet with hfet | hfet
      · rw [hfet] at hl2
        exact Or.inl hl2
      · rw [hfet, List.mem_append, List.mem_singleton] at hl2
        rcases hl2 with hl2 | hl2
        · exact Or.inl hl2
        · exact Or.inr ⟨(sid, g), List.mem_cons_self _ _, hl2⟩
    cases res with
    | error e =>
      rw [getUnitDataLoop_cons_error env reload reqIds missing sid g rest st log acc hstep] at h
      exact hlog1 l h
    | ok rows =>
      rw [getUnitDataLoop_cons_ok env reload reqIds missing sid g rest st log acc hstep] at h
      rcases ih _ _ _ h with h2 | ⟨q, hq, hql⟩
      · exact hlog1 l h2
      · exact Or.inr ⟨q, List.mem_cons_of_mem _ hq, hql⟩

theorem getUnitDataLoop_files (env : RemoteEnv) (reload : Bool)
    (reqIds missing : List Nat) (gs : List (Nat × List Nat))
    (st : DBState) (log : FetchLog) (acc : List UnitRow) (k : Nat)
    (hk : k ∉ gs.map Prod.fst) :
    readFile (getUnitDataLoop env reload reqIds missing gs st log acc).state.disk.unitFiles k
      = readFile st.disk.unitFiles k := by
  induction gs generalizing st log acc with
  | nil => rfl
  | cons p rest ih =>
    obtain ⟨sid, g⟩ := p
    have hk1 : k ≠ sid := by
      intro heq
      exact hk (by rw [heq]; exact List.mem_cons_self _ _)
    have hk2 : k ∉ rest.map Prod.fst := fun hmem => hk (List.mem_cons_of_mem _ hmem)
    have hfiles := (unitSessStep_files env reload reqIds missing sid g st log).1 k hk1
    rcases hstep : unitSessStep env reload reqIds missing sid g st log with ⟨st1, log1, res⟩
    rw [hstep] at hfiles
    cases res with
    | error e =>
      rw [getUnitDataLoop_cons_error env reload reqIds missing sid g rest st log acc hstep]
      exact hfiles
    | ok rows =>
      rw [getUnitDataLoop_cons_ok env reload reqIds missing sid g rest st log acc hstep,
        ih _ _ _ hk2]
      exact hfiles

theorem getUnitDataLoop_units_mono (env : RemoteEnv) (reload : Bool)
    (reqIds missing : List Nat) (gs : List (Nat × List Nat))
    (st : DBState) (log : FetchLog) (acc : List UnitRow) {i : Nat}
    (h : i ∈ st.localData.units.map (fun r => r.unitid)) :
    i ∈ (getUnitDataLoop env reload reqIds missing gs st log acc).state.localData.units.map
      (fun r => r.unitid) := by
  induction gs generalizing st log acc with
  | nil => exact h
  | cons p rest ih =>
    obtain ⟨sid, g⟩ := p
    have hld := unitSessStep_localData env reload reqIds missing sid g st log
    rcases hstep : unitSessStep env reload reqIds missing sid g st log with ⟨st1, log1, res⟩
    rw [hstep] at hld
    have h1 : i ∈ st1.localData.units.map (fun r => r.unitid) := by
      rcases hld with hld | ⟨raw, _, hld⟩
      · rw [hld]
        exact h
      · rw [hld]
        rw [(updateLocalUnitsTable_ids_perm _ _).mem_iff, List.map_append, List.mem_append]
        exact Or.inl h
    cases res with
    | error e =>
      rw [getUnitDataLoop_cons_error env reload reqIds missing sid g rest st log acc hstep]
      exact h1
    | ok rows =>
      rw [getUnitDataLoop_cons_ok env reload reqIds missing sid g rest st log acc hstep]
      exact ih _ _ _ h1

theorem getUnitDataLoop_units_sub (env : RemoteEnv) (reload : Bool)
    (reqIds missing : List Nat) (gs : List (Nat × List Nat))
    (st : DBState) (log : FetchLog) (acc : List UnitRow)
    (honest : honestUnitFetch env) {i : Nat}
    (h : i ∈ (getUnitDataLoop env reload reqIds missing gs st log acc).state.localData.units.map
      (fun r => r.unitid)) :
    i ∈ st.localData.units.map (fun r => r.unitid) ∨
      ∃ p ∈ gs, i ∈ intersect1d p.2 missing := by
  induction gs generalizing st log acc with
  | nil => exact Or.inl h
  | cons p rest ih =>
    obtain ⟨sid, g⟩ := p
    have hld := unitSessStep_localData env reload reqIds missing sid g st log
    rcases hstep : unitSessStep env reload reqIds missing sid g st log with ⟨st1, log1, res⟩
    rw [hstep] at hld
    have hstep1 : ∀ j : Nat, j ∈ st1.localData.units.map (fun r => r.unitid) →
        j ∈ st.localData.units.map (fun r => r.unitid) ∨ j ∈ intersect1d g missing := by
      intro j hj
      rcases hld with hld | ⟨raw, hraw, hld⟩
      · rw [hld] at hj
        exact Or.inl hj
      · rw [hld, (updateLocalUnitsTable_ids_perm _ _).mem_iff, List.map_append,
          List.mem_append] at hj
        rcases hj with hj | hj
        · exact Or.inl hj
        · rw [newUnitData_ids] at hj
          exact Or.inr ((honest _ _ (nodup_intersect1d _ _) hraw).1 hj)
    cases res with
    | error e =>
      rw [getUnitDataLoop_cons_error env reload reqIds missing sid g rest st log acc hstep] at h
      rcases hstep1 i h with h2 | h2
      · exact Or.inl h2
      · exact Or.inr ⟨(sid, g), List.mem_cons_self _ _, h2⟩
    | ok rows =>
      rw [getUnitDataLoop_cons_ok env reload reqIds missing sid g rest st log acc hstep] at h
      rcases ih _ _ _ h with h2 | ⟨q, hq, hqi⟩
      · rcases hstep1 i h2 with h3 | h3
        · exact Or.inl h3
        · exact Or.inr ⟨(sid, g), List.mem_cons_self _ _, h3⟩
      · exact Or.inr ⟨q, List.mem_cons_of_mem _ hq, hqi⟩

theorem getUnitDataLoop_units_nodup (env : RemoteEnv) (reload : Bool)
    (reqIds missing : List Nat) (gs : List (Nat × List Nat))
    (st : DBState) (log : FetchLog) (acc : List UnitRow)
    (honest : honestUnitFetch env)
    (hpair : List.Pairwise (fun a b : Nat × List Nat => ∀ i, i ∈ a.2 → i ∉ b.2) gs)
    (hnd : (st.localData.units.map (fun r => r.unitid)).Nodup)
    (hfresh : ∀ p ∈ gs, ∀ i, i ∈ intersect1d p.2 missing →
      i ∉ st.localData.units.map (fun r => r.unitid)) :
    ((getUnitDataLoop env reload reqIds missing gs st log acc).state.localData.units.map
      (fun r => r.unitid)).Nodup := by
  induction gs generalizing st log acc with
  | nil => exact hnd
  | cons p rest ih =>
    obtain ⟨sid, g⟩ := p
    rw [List.pairwise_cons] at hpair
    have hld := unitSessStep_localData env reload reqIds missing sid g st log
    rcases hstep : unitSessStep env reload reqIds missing sid g st log with ⟨st1, log1, res⟩
    rw [hstep] at hld
    have hnd1 : (st1.localData.units.map (fun r => r.unitid)).Nodup := by
      rcases hld with hld | ⟨raw, hraw, hld⟩
      · rw [hld]
        exact hnd
      · rw [hld]
        rw [(updateLocalUnitsTable_ids_perm _ _).nodup_iff, List.map_append]
        have hr := honest _ _ (nodup_intersect1d _ _) hraw
        rw [List.nodup_append]
        refine ⟨hnd, by rw [newUnitData_ids]; exact hr.2, ?_⟩
        intro a ha hb
        rw [newUnitData_ids] at hb
        exact hfresh (sid, g) (List.mem_cons_self _ _) a (hr.1 hb) ha
    have hsub1 : ∀ j : Nat, j ∈ st1.localData.units.map (fun r => r.unitid) →
        j ∈ st.localData.units.map (fun r => r.unitid) ∨ j ∈ intersect1d g missing := by
      intro j hj
      rcases hld with hld | ⟨raw, hraw, hld⟩
      · rw [hld] at hj
        exact Or.inl hj
      · rw [hld, (updateLocalUnitsTable_ids_perm _ _).mem_iff, List.map_append,
          List.mem_append] at hj
        rcases hj with hj | hj
        · exact Or.inl hj
        · rw [newUnitData_ids] at hj
          exact Or.inr ((honest _ _ (nodup_intersect1d _ _) hraw).1 hj)
    cases res with
    | error e =>
      rw [getUnitDataLoop_cons_error env reload reqIds missing sid g rest st log acc hstep]
      exact hnd1
    | ok rows =>
      rw [getUnitDataLoop_cons_ok env reload reqIds missing sid g rest st log acc hstep]
      refine ih _ _ _ hpair.2 hnd1 ?_
      intro q hq i hi hi1
      rcases hsub1 i hi1 with h2 | h2
      · exact hfresh q (List.mem_cons_of_mem _ hq) i hi h2
      · have higq : i ∈ q.2 := (mem_intersect1d.mp hi).1
        have hig : i ∈ g := (mem_intersect1d.mp h2).1
        exact hpair.1 q hq i hig higq

theorem getUnitDataLoop_adds (env : RemoteEnv) (reload : Bool)
    (reqIds missing : List Nat) (gs : List (Nat × List Nat))
    (st : DBState) (log : FetchLog) (acc : List UnitRow)
    {st' : DBState} {log' : FetchLog} {acc' : List UnitRow}
    (hexact : exactUnitFetch env)
    (h : getUnitDataLoop env reload reqIds missing gs st log acc
      = ⟨st', log', Except.ok acc'⟩) :
    ∀ p ∈ gs, ∀ i, i ∈ intersect1d p.2 missing →
      i ∈ st'.localData.units.map (fun r => r.unitid) := by
  induction gs generalizing st log acc with
  | nil => intro p hp; simp at hp
  | cons p rest ih =>
    obtain ⟨sid, g⟩ := p
    rcases hstep : unitSessStep env reload reqIds missing sid g st log with ⟨st1, log1, res⟩
    cases res with
    | error e =>
      rw [getUnitDataLoop_cons_error env reload reqIds missing sid g rest st log acc hstep] at h
      injection h with h1 h2 h3
      simp at h3
    | ok rows =>
      rw [getUnitDataLoop_cons_ok env reload reqIds missing sid g rest st log acc hstep] at h
      intro q hq i hi
      rcases List.mem_cons.mp hq with rfl | hq2
      · by_cases hne : (intersect1d g missing).isEmpty = true
        · rw [List.isEmpty_iff] at hne
          rw [hne] at hi
          simp at hi
        · obtain ⟨raw, hraw, hld⟩ :=
            unitSessStep_ok_nonempty env reload reqIds missing sid g st log hne hstep
          have hin : i ∈ st1.localData.units.map (fun r => r.unitid) := by
            rw [hld, (updateLocalUnitsTable_ids_perm _ _).mem_iff, List.map_append,
              List.mem_append]
            refine Or.inr ?_
            rw [newUnitData_ids, hexact _ _ (nodup_intersect1d _ _) hraw]
            exact hi
          have := getUnitDataLoop_units_mono env reload reqIds missing rest st1 log1
            (acc ++ rows) hin
          rw [h] at this
          exact this
      · exact ih _ _ _ h q hq2 i hi

theorem getUnitDataLoop_disk_noSave (env : RemoteEnv) (reload : Bool)
    (reqIds missing : List Nat) (gs : List (Nat × List Nat))
    (st : DBState) (log : FetchLog) (acc : List UnitRow)
    (h : st.saveLocally = false) :
    (getUnitDataLoop env reload reqIds missing gs st log acc).state.disk = st.disk ∧
    (getUnitDataLoop env reload reqIds missing gs st log acc).state.saveLocally = false := by
  induction gs generalizing st log acc with
  | nil => exact ⟨rfl, h⟩
  | cons p rest ih =>
    obtain ⟨sid, g⟩ := p
    have hdisk := unitSessStep_disk_noSave env reload reqIds missing sid g st log h
    have hsl := unitSessStep_saveLocally env reload reqIds missing sid g st log
    rcases hstep : unitSessStep env reload reqIds missing sid g st log with ⟨st1, log1, res⟩
    rw [hstep] at hdisk hsl
    rw [h] at hsl
    cases res with
    | error e =>
      rw [getUnitDataLoop_cons_error env reload reqIds missing sid g rest st log acc hstep]
      exact ⟨hdisk, hsl⟩
    | ok rows =>
      rw [getUnitDataLoop_cons_ok env reload reqIds missing sid g rest st log acc hstep]
      obtain ⟨ih1, ih2⟩ := ih st1 log1 (acc ++ rows) hsl
      exact ⟨ih1.trans hdisk, ih2⟩

theorem updateLocalFp_localData (st : DBState) (nd : List FpRow) :
    (updateLocalFp st nd).localData
      = updateLocalFpTable st.localData (nd.map fpIdentityCols) := by
  unfold updateLocalFp
  rw [saveLocalData_localData]

theorem updateLocalFp_fpFiles (st : DBState) (nd : List FpRow) :
    (updateLocalFp st nd).disk.fpFiles = st.disk.fpFiles := by
  unfold updateLocalFp
  rw [saveLocalData_fpFiles]

theorem updateLocalFp_unitFiles (st : DBState) (nd : List FpRow) :
    (updateLocalFp st nd).disk.unitFiles = st.disk.unitFiles := by
  unfold updateLocalFp
  rw [saveLocalData_unitFiles]

theorem updateLocalFp_behFiles (st : DBState) (nd : List FpRow) :
    (updateLocalFp st nd).disk.behFiles = st.disk.behFiles := by
  unfold updateLocalFp
  rw [saveLocalData_behFiles]

theorem updateLocalFp_saveLocally (st : DBState) (nd : List FpRow) :
    (updateLocalFp st nd).saveLocally = st.saveLocally := by
  unfold updateLocalFp
  rw [saveLocalData_saveLocally]

theorem updateLocalFpTable_ids_perm (ld : LocalData) (rows : List FpIdxRow) :
    ((updateLocalFpTable ld rows).fpData.map (fun r => r.fpid)).Perm
      ((ld.fpData ++ rows).map (fun r => r.fpid)) := by
  unfold updateLocalFpTable
  exact (sortOn_perm _ _).map _

theorem newFpData_ids (raw : List FpRaw) :
    ((raw.map formatFpRow).map fpIdentityCols).map (fun r => r.fpid)
      = raw.map (fun r => r.id) := by
  simp only [List.map_map]
  rfl

/-! ## Characterization lemmas for the fp-session step and loop -/

theorem fpSessStep_resolved (env : RemoteEnv) (reload : Bool)
    (reqIds missing : List Nat) (sid : Nat) (g : List Nat) (st : DBState) (log : FetchLog) :
    (fpSessStep env reload reqIds missing sid g st log).2.1.resolved = log.resolved := by
  simp only [fpSessStep]
  split
  · split <;> rfl
  · split <;> rfl

theorem fpSessStep_fetched (env : RemoteEnv) (reload : Bool)
    (reqIds missing : List Nat) (sid : Nat) (g : List Nat) (st : DBState) (log : FetchLog) :
    (fpSessStep env reload reqIds missing sid g st log).2.1.fetched = log.fetched ∨
    (fpSessStep env reload reqIds missing sid g st log).2.1.fetched
      = log.fetched ++ [intersect1d g missing] := by
  simp only [fpSessStep]
  split
  · split <;> exact Or.inl rfl
  · split <;> exact Or.inr rfl

theorem fpSessStep_disk_noSave (env : RemoteEnv) (reload : Bool)
    (reqIds missing : List Nat) (sid : Nat) (g : List Nat) (st : DBState) (log : FetchLog)
    (h : st.saveLocally = false) :
    (fpSessStep env reload reqIds missing sid g st log).1.disk = st.disk := by
  simp only [fpSessStep]
  split
  · split <;> rfl
  · split
    · rfl
    · unfold updateLocalFp
      rw [h]
      simp only [Bool.false_eq_true, if_false]
      exact saveLocalData_disk_false _ (by rw [h])

theorem fpSessStep_saveLocally (env : RemoteEnv) (reload : Bool)
    (reqIds missing : List Nat) (sid : Nat) (g : List Nat) (st : DBState) (log : FetchLog) :
    (fpSessStep env reload reqIds missing sid g st log).1.saveLocally = st.saveLocally := by
  simp only [fpSessStep]
  split
  · split <;> rfl
  · split
    · rfl
    · rw [updateLocalFp_saveLocally]
      split <;> rfl

theorem getFpDataLoop_cons_error (env : RemoteEnv) (reload : Bool)
    (reqIds missing : List Nat) (sid : Nat) (g : List Nat)
    (rest : List (Nat × List Nat)) (st : DBState) (log : FetchLog) (acc : List FpRow)
    {st1 : DBState} {log1 : FetchLog} {e : DbErr}
    (hstep : fpSessStep env reload reqIds missing sid g st log
      = (st1, log1, Except.error e)) :
    getFpDataLoop env reload reqIds missing ((sid, g) :: rest) st log acc
      = ⟨st1, log1, Except.error e⟩ := by
  simp only [getFpDataLoop]
  rw [hstep]

theorem getFpDataLoop_cons_ok (env : RemoteEnv) (reload : Bool)
    (reqIds missing : List Nat) (sid : Nat) (g : List Nat)
    (rest : List (Nat × List Nat)) (st : DBState) (log : FetchLog) (acc : List FpRow)
    {st1 : DBState} {log1 : FetchLog} {rows : List FpRow}
    (hstep : fpSessStep env reload reqIds missing sid g st log
      = (st1, log1, Except.ok rows)) :
    getFpDataLoop env reload reqIds missing ((sid, g) :: rest) st log acc
      = getFpDataLoop env reload reqIds missing rest st1 log1 (acc ++ rows) := by
  simp only [getFpDataLoop]
  rw [hstep]

theorem fpSessStep_localData (env : RemoteEnv) (reload : Bool)
    (reqIds missing : List Nat) (sid : Nat) (g : List Nat) (st : DBState) (log : FetchLog) :
    (fpSessStep env reload reqIds missing sid g st log).1.localData = st.localData ∨
    ∃ raw, env.fetchFp (intersect1d g missing) = Except.ok raw ∧
      (fpSessStep env reload reqIds missing sid g st log).1.localData
        = updateLocalFpTable st.localData
            ((raw.map formatFpRow).map fpIdentityCols) := by
  simp only [fpSessStep]
  split
  · split <;> exact Or.inl rfl
  · split
    · exact Or.inl rfl
    · rename_i raw hraw
      refine Or.inr ⟨raw, hraw, ?_⟩
      rw [updateLocalFp_localData]
      split <;> rfl

theorem getFpDataLoop_fpData_nodup (env : RemoteEnv) (reload : Bool)
    (reqIds missing : List Nat) (gs : List (Nat × List Nat))
    (st : DBState) (log : FetchLog) (acc : List FpRow)
    (honest : honestFpFetch env)
    (hpair : List.Pairwise (fun a b : Nat × List Nat => ∀ i, i ∈ a.2 → i ∉ b.2) gs)
    (hnd : (st.localData.fpData.map (fun r => r.fpid)).Nodup)
    (hfresh : ∀ p ∈ gs, ∀ i, i ∈ intersect1d p.2 missing →
      i ∉ st.localData.fpData.map (fun r => r.fpid)) :
    ((getFpDataLoop env reload reqIds missing gs st log acc).state.localData.fpData.map
      (fun r => r.fpid)).Nodup := by
  induction gs generalizing st log acc with
  | nil => exact hnd
  | cons p rest ih =>
    obtain ⟨sid, g⟩ := p
    rw [List.pairwise_cons] at hpair
    have hld := fpSessStep_localData env reload reqIds missing sid g st log
    rcases hstep : fpSessStep env reload reqIds missing sid g st log with ⟨st1, log1, res⟩
    rw [hstep] at hld
    have hnd1 : (st1.localData.fpData.map (fun r => r.fpid)).Nodup := by
      rcases hld with hld | ⟨raw, hraw, hld⟩
      · rw [hld]
        exact hnd
      · rw [hld]
        rw [(updateLocalFpTable_ids_perm _ _).nodup_iff, List.map_append]
        have hr := honest _ _ (nodup_intersect1d _ _) hraw
        rw [List.nodup_append]
        refine ⟨hnd, by rw [newFpData_ids]; exact hr.2, ?_⟩
        intro a ha hb
        rw [newFpData_ids] at hb
        exact hfresh (sid, g) (List.mem_cons_self _ _) a (hr.1 hb) ha
    have hsub1 : ∀ j : Nat, j ∈ st1.localData.fpData.map (fun r => r.fpid) →
        j ∈ st.localData.fpData.map (fun r => r.fpid) ∨ j ∈ intersect1d g missing := by
      intro j hj
      rcases hld with hld | ⟨raw, hraw, hld⟩
      · rw [hld] at hj
        exact Or.inl hj
      · rw [hld, (updateLocalFpTable_ids_perm _ _).mem_iff, List.map_append,
          List.mem_append] at hj
        rcases hj with hj | hj
        · exact Or.inl hj
        · rw [newFpData_ids] at hj
          exact Or.inr ((honest _ _ (nodup_intersect1d _ _) hraw).1 hj)
    cases res with
    | error e =>
      rw [getFpDataLoop_cons_error env reload reqIds missing sid g rest st log acc hstep]
      exact hnd1
    | ok rows =>
      rw [getFpDataLoop_cons_ok env reload reqIds missing sid g rest st log acc hstep]
      refine ih _ _ _ hpair.2 hnd1 ?_
      intro q hq i hi hi1
      rcases hsub1 i hi1 with h2 | h2
      · exact hfresh q (List.mem_cons_of_mem _ hq) i hi h2
      · have higq : i ∈ q.2 := (mem_intersect1d.mp hi).1
        have hig : i ∈ g := (mem_intersect1d.mp h2).1
        exact hpair.1 q hq i hig higq

theorem getFpDataLoop_resolved (env : RemoteEnv) (reload : Bool)
    (reqIds missing : List Nat) (gs : List (Nat × List Nat))
    (st : DBState) (log : FetchLog) (acc : List FpRow) :
    (getFpDataLoop env reload reqIds missing gs st log acc).log.resolved
      = log.resolved := by
  induction gs generalizing st log acc with
  | nil => rfl
  | cons p rest ih =>
    obtain ⟨sid, g⟩ := p
    have hres := fpSessStep_resolved env reload reqIds missing sid g st log
    rcases hstep : fpSessStep env reload reqIds missing sid g st log with ⟨st1, log1, res⟩
    rw [hstep] at hres
    cases res with
    | error e =>
      rw [getFpDataLoop_cons_error env reload reqIds missing sid g rest st log acc hstep]
      exact hres
    | ok rows =>
      rw [getFpDataLoop_cons_ok env reload reqIds missing sid g rest st log acc hstep, ih]
      exact hres

theorem getFpDataLoop_fetched (env : RemoteEnv) (reload : Bool)
    (reqIds missing : List Nat) (gs : List (Nat × List Nat))
    (st : DBState) (log : FetchLog) (acc : List FpRow) {l : List Nat}
    (h : l ∈ (getFpDataLoop env reload reqIds missing gs st log acc).log.fetched) :
    l ∈ log.fetched ∨ ∃ p ∈ gs, l = intersect1d p.2 missing := by
  induction gs generalizing st log acc with
  | nil => exact Or.inl h
  | cons p rest ih =>
    obtain ⟨sid, g⟩ := p
    have hfet := fpSessStep_fetched env reload reqIds missing sid g st log
    rcases hstep : fpSessStep env reload reqIds missing sid g st log with ⟨st1, log1, res⟩
    rw [hstep] at hfet
    have hlog1 : ∀ l2, l2 ∈ log1.fetched →
        l2 ∈ log.fetched ∨ ∃ p ∈ (sid, g) :: rest, l2 = intersect1d p.2 missing := by
      intro l2 hl2
      rcases hfet with hfet | hfet
      · rw [hfet] at hl2
        exact Or.inl hl2
      · rw [hfet, List.mem_append, List.mem_singleton] at hl2
        rcases hl2 with hl2 | hl2
        · exact Or.inl hl2
        · exact Or.inr ⟨(sid, g), List.mem_cons_self _ _, hl2⟩
    cases res with
    | error e =>
      rw [getFpDataLoop_cons_error env reload reqIds missing sid g rest st log acc hstep] at h
      exact hlog1 l h
    | ok rows =>
      rw [getFpDataLoop_cons_ok env reload reqIds missing sid g rest st log acc hstep] at h
      rcases ih _ _ _ h with h2 | ⟨q, hq, hql⟩
      · exact hlog1 l h2
      · exact Or.inr ⟨q, List.mem_cons_of_mem _ hq, hql⟩

theorem getFpDataLoop_disk_noSave (env : RemoteEnv) (reload : Bool)
    (reqIds missing : List Nat) (gs : List (Nat × List Nat))
    (st : DBState) (log : FetchLog) (acc : List FpRow)
    (h : st.saveLocally = false) :
    (getFpDataLoop env reload reqIds missing gs st log acc).state.disk = st.disk ∧
    (getFpDataLoop env reload reqIds missing gs st log acc).state.saveLocally = false := by
  induction gs generalizing st log acc with
  | nil => exact ⟨rfl, h⟩
  | cons p rest ih =>
    obtain ⟨sid, g⟩ := p
    have hdisk := fpSessStep_disk_noSave env reload reqIds missing sid g st log h
    have hsl := fpSessStep_saveLocally env reload reqIds missing sid g st log
    rcases hstep : fpSessStep env reload reqIds missing sid g st log with ⟨st1, log1, res⟩
    rw [hstep] at hdisk hsl
    rw [h] at hsl
    cases res with
    | error e =>
      rw [getFpDataLoop_cons_error env reload reqIds missing sid g rest st log acc hstep]
      exact ⟨hdisk, hsl⟩
    | ok rows =>
      rw [getFpDataLoop_cons_ok env reload reqIds missing sid g rest st log acc hstep]
      obtain ⟨ih1, ih2⟩ := ih st1 log1 (acc ++ rows) hsl
      exact ⟨ih1.trans hdisk, ih2⟩

/-! ## Characterization lemmas for the behavioral step and loop -/

theorem updateLocalSessions_localData (st : DBState) (nd : List BehRow) :
    (updateLocalSessions st nd).localData
      = updateLocalSessionsTable st.localData (nd.map behIdentityCols) := by
  unfold updateLocalSessions
  rw [saveLocalData_localData]

theorem updateLocalSessions_behFiles (st : DBState) (nd : List BehRow) :
    (updateLocalSessions st nd).disk.behFiles = st.disk.behFiles := by
  unfold updateLocalSessions
  rw [saveLocalData_behFiles]

theorem updateLocalSessions_saveLocally (st : DBState) (nd : List BehRow) :
    (updateLocalSessions st nd).saveLocally = st.saveLocally := by
  unfold updateLocalSessions
  rw [saveLocalData_saveLocally]

theorem behSessStep_resolved (env : RemoteEnv) (reload : Bool) (sid : Nat)
    (st : DBState) (log : FetchLog) :
    (behSessStep env reload sid st log).2.1.resolved = log.resolved := by
  simp only [behSessStep]
  split
  · rfl
  · split
    · rfl
    · split <;> rfl

theorem behSessStep_fetched (env : RemoteEnv) (reload : Bool) (sid : Nat)
    (st : DBState) (log : FetchLog) :
    (behSessStep env reload sid st log).2.1.fetched = log.fetched ∨
    ((behSessStep env reload sid st log).2.1.fetched = log.fetched ++ [[sid]] ∧
      (readFile st.disk.behFiles sid = none ∨ reload = true)) := by
  rcases hfl : readFile st.disk.behFiles sid with _ | part
  · cases reload
    · simp only [behSessStep, hfl]
      split
      · simp
      · split <;> simp
    · simp only [behSessStep, hfl]
      split
      · simp
      · split <;> simp
  · cases reload
    · simp only [behSessStep, hfl]
      simp
    · simp only [behSessStep, hfl]
      split
      · simp
      · split <;> simp

theorem behSessStep_errorFetch (env : RemoteEnv) (reload : Bool) (sid : Nat)
    (st : DBState) (log : FetchLog) {e : DbErr}
    (h : (behSessStep env reload sid st log).2.2 = Except.error e) :
    env.fetchSess sid = Except.error e := by
  simp only [behSessStep] at h
  revert h
  split
  · intro h
    simp at h
  · split
    · rename_i e2 hfetch
      intro h
      injection h with h
      rw [hfetch, h]
    · split
      · intro h
        simp at h
      · intro h
        simp at h

theorem behSessStep_behFiles_ne (env : RemoteEnv) (reload : Bool) (sid : Nat)
    (st : DBState) (log : FetchLog) (k : Nat) (hk : k ≠ sid) :
    readFile (behSessStep env reload sid st log).1.disk.behFiles k
      = readFile st.disk.behFiles k := by
  simp only [behSessStep]
  split
  · rfl
  · split
    · rfl
    · split
      · rfl
      · rw [updateLocalSessions_behFiles]
        split
        · exact readFile_writeFile_ne _ _ _ _ (Ne.symm hk)
        · rfl

theorem behSessStep_saveLocally (env : RemoteEnv) (reload : Bool) (sid : Nat)
    (st : DBState) (log : FetchLog) :
    (behSessStep env reload sid st log).1.saveLocally = st.saveLocally := by
  simp only [behSessStep]
  split
  · rfl
  · split
    · rfl
    · split
      · rfl
      · rw [updateLocalSessions_saveLocally]
        split <;> rfl

theorem behSessStep_disk_noSave (env : RemoteEnv) (reload : Bool) (sid : Nat)
    (st : DBState) (log : FetchLog) (h : st.saveLocally = false) :
    (behSessStep env reload sid st log).1.disk = st.disk := by
  simp only [behSessStep]
  split
  · rfl
  · split
    · rfl
    · split
      · rfl
      · unfold updateLocalSessions
        rw [h]
        simp only [Bool.false_eq_true, if_false]
        exact saveLocalData_disk_false _ (by rw [h])

theorem getBehaviorDataLoop_cons_error (env : RemoteEnv) (reload : Bool) (sid : Nat)
    (rest : List Nat) (st : DBState) (log : FetchLog) (acc : List BehRow)
    {st1 : DBState} {log1 : FetchLog} {e : DbErr}
    (hstep : behSessStep env reload sid st log = (st1, log1, Except.error e)) :
    getBehaviorDataLoop env reload (sid :: rest) st log acc = ⟨st1, log1, Except.error e⟩ := by
  simp only [getBehaviorDataLoop]
  rw [hstep]

theorem getBehaviorDataLoop_cons_ok (env : RemoteEnv) (reload : Bool) (sid : Nat)
    (rest : List Nat) (st : DBState) (log : FetchLog) (acc : List BehRow)
    {st1 : DBState} {log1 : FetchLog} {rows : List BehRow}
    (hstep : behSessStep env reload sid st log = (st1, log1, Except.ok rows)) :
    getBehaviorDataLoop env reload (sid :: rest) st log acc
      = getBehaviorDataLoop env reload rest st1 log1 (acc ++ rows) := by
  simp only [getBehaviorDataLoop]
  rw [hstep]

theorem getBehaviorDataLoop_isOk (env : RemoteEnv) (reload : Bool) (ids : List Nat)
    (st : DBState) (log : FetchLog) (acc : List BehRow)
    (hok : ∀ s, (env.fetchSess s).isOk = true) :
    (getBehaviorDataLoop env reload ids st log acc).result.isOk = true := by
  induction ids generalizing st log acc with
  | nil => rfl
  | cons sid rest ih =>
    rcases hstep : behSessStep env reload sid st log with ⟨st1, log1, res⟩
    cases res with
    | error e =>
      have herr := behSessStep_errorFetch env reload sid st log (by rw [hstep])
      have h2 := hok sid
      rw [herr] at h2
      simp [Except.isOk, Except.toBool] at h2
    | ok rows =>
      rw [getBehaviorDataLoop_cons_ok env reload sid rest st log acc hstep]
      exact ih _ _ _

theorem getBehaviorDataLoop_fetched (env : RemoteEnv) (ids : List Nat)
    (st : DBState) (log : FetchLog) (acc : List BehRow)
    (hnd : ids.Nodup) {l : List Nat}
    (h : l ∈ (getBehaviorDataLoop env false ids st log acc).log.fetched) :
    l ∈ log.fetched ∨
      ∃ s ∈ ids, l = [s] ∧ readFile st.disk.behFiles s = none := by
  induction ids generalizing st log acc with
  | nil => exact Or.inl h
  | cons sid rest ih =>
    rw [List.nodup_cons] at hnd
    have hfet := behSessStep_fetched env false sid st log
    rcases hstep : behSessStep env false sid st log with ⟨st1, log1, res⟩
    rw [hstep] at hfet
    have hlog1 : ∀ l2, l2 ∈ log1.fetched → l2 ∈ log.fetched ∨
        ∃ s ∈ sid :: rest, l2 = [s] ∧ readFile st.disk.behFiles s = none := by
      intro l2 hl2
      rcases hfet with hfet | ⟨hfet, hcond⟩
      · rw [hfet] at hl2
        exact Or.inl hl2
      · rw [hfet, List.mem_append, List.mem_singleton] at hl2
        rcases hl2 with hl2 | hl2
        · exact Or.inl hl2
        · rcases hcond with hcond | hcond
          · exact Or.inr ⟨sid, List.mem_cons_self _ _, hl2, hcond⟩
          · cases hcond
    cases res with
    | error e =>
      rw [getBehaviorDataLoop_cons_error env false sid rest st log acc hstep] at h
      exact hlog1 l h
    | ok rows =>
      rw [getBehaviorDataLoop_cons_ok env false sid rest st log acc hstep] at h
      rcases ih _ _ _ hnd.2 h with h2 | ⟨s, hs, hl, hfile⟩
      · exact hlog1 l h2
      · have hksid : s ≠ sid := fun heq => hnd.1 (heq ▸ hs)
        have htrans : readFile st1.disk.behFiles s = readFile st.disk.behFiles s := by
          have h3 := behSessStep_behFiles_ne env false sid st log s hksid
          rw [hstep] at h3
          exact h3
        rw [htrans] at hfile
        exact Or.inr ⟨s, List.mem_cons_of_mem _ hs, hl, hfile⟩

theorem getBehaviorDataLoop_disk_noSave (env : RemoteEnv) (reload : Bool) (ids : List Nat)
    (st : DBState) (log : FetchLog) (acc : List BehRow)
    (h : st.saveLocally = false) :
    (getBehaviorDataLoop env reload ids st log acc).state.disk = st.disk ∧
    (getBehaviorDataLoop env reload ids st log acc).state.saveLocally = false := by
  induction ids generalizing st log acc with
  | nil => exact ⟨rfl, h⟩
  | cons sid rest ih =>
    have hdisk := behSessStep_disk_noSave env reload sid st log h
    have hsl := behSessStep_saveLocally env reload sid st log
    rcases hstep : behSessStep env reload sid st log with ⟨st1, log1, res⟩
    rw [hstep] at hdisk hsl
    rw [h] at hsl
    cases res with
    | error e =>
      rw [getBehaviorDataLoop_cons_error env reload sid rest st log acc hstep]
      exact ⟨hdisk, hsl⟩
    | ok rows =>
      rw [getBehaviorDataLoop_cons_ok env reload sid rest st log acc hstep]
      obtain ⟨ih1, ih2⟩ := ih st1 log1 (acc ++ rows) hsl
      exact ⟨ih1.trans hdisk, ih2⟩

/-! ## The in-memory trajectory does not depend on the save flag -/

theorem unitSessStep_saveCongr (env : RemoteEnv) (reload : Bool)
    (reqIds missing : List Nat) (sid : Nat) (g : List Nat) (stF stT : DBState)
    (log : FetchLog) (hld : stF.localData = stT.localData)
    (hfile : readFile stF.disk.unitFiles sid = readFile stT.disk.unitFiles sid) :
    (unitSessStep env reload reqIds missing sid g stF log).1.localData
      = (unitSessStep env reload reqIds missing sid g stT log).1.localData ∧
    (unitSessStep env reload reqIds missing sid g stF log).2.1
      = (unitSessStep env reload reqIds missing sid g stT log).2.1 ∧
    (unitSessStep env reload reqIds missing sid g stF log).2.2
      = (unitSessStep env reload reqIds missing sid g stT log).2.2 := by
  simp only [unitSessStep, hfile]
  by_cases hne : (intersect1d g missing).isEmpty = true
  · rw [if_pos hne, if_pos hne]
    rcases hflT : readFile stT.disk.unitFiles sid with _ | part
    · exact ⟨hld, rfl, rfl⟩
    · exact ⟨hld, rfl, rfl⟩
  · rw [if_neg hne, if_neg hne]
    rcases hf : env.fetchUnits (intersect1d g missing) with e | raw
    · exact ⟨hld, rfl, rfl⟩
    · refine ⟨?_, rfl, rfl⟩
      rw [updateLocalUnits_localData, updateLocalUnits_localData]
      have hF : ∀ c : Prop, ∀ h : Decidable c, ∀ (st : DBState) (d : DiskState),
          (if c then { st with disk := d } else st).localData = st.localData := by
        intro c h st d
        split <;> rfl
      rw [hF, hF, hld]

theorem getUnitDataLoop_saveCongr (env : RemoteEnv) (reload : Bool)
    (reqIds missing : List Nat) (gs : List (Nat × List Nat))
    (stF stT : DBState) (log : FetchLog) (acc : List UnitRow)
    (hfst : (gs.map Prod.fst).Nodup)
    (hld : stF.localData = stT.localData)
    (hslF : stF.saveLocally = false)
    (hfiles : ∀ p ∈ gs, readFile stF.disk.unitFiles p.1 = readFile stT.disk.unitFiles p.1) :
    (getUnitDataLoop env reload reqIds missing gs stF log acc).state.localData
      = (getUnitDataLoop env reload reqIds missing gs stT log acc).state.localData ∧
    (getUnitDataLoop env reload reqIds missing gs stF log acc).log
      = (getUnitDataLoop env reload reqIds missing gs stT log acc).log ∧
    (getUnitDataLoop env reload reqIds missing gs stF log acc).result
      = (getUnitDataLoop env reload reqIds missing gs stT log acc).result := by
  induction gs generalizing stF stT log acc with
  | nil => exact ⟨hld, rfl, rfl⟩
  | cons p rest ih =>
    obtain ⟨sid, g⟩ := p
    have hstepCongr := unitSessStep_saveCongr env reload reqIds missing sid g stF stT log
      hld (hfiles (sid, g) (List.mem_cons_self _ _))
    rcases hstepF : unitSessStep env reload reqIds missing sid g stF log
      with ⟨stF1, logF1, resF⟩
    rcases hstepT : unitSessStep env reload reqIds missing sid g stT log
      with ⟨stT1, logT1, resT⟩
    rw [hstepF, hstepT] at hstepCongr
    obtain ⟨hld1, hlog1, hres1⟩ := hstepCongr
    have hslF1 : stF1.saveLocally = false := by
      have h3 := unitSessStep_saveLocally env reload reqIds missing sid g stF log
      rw [hstepF] at h3
      rw [h3, hslF]
    have hdiskF1 : stF1.disk = stF.disk := by
      have h3 := unitSessStep_disk_noSave env reload reqIds missing sid g stF log hslF
      rw [hstepF] at h3
      exact h3
    have hfiles1 : ∀ p ∈ rest, readFile stF1.disk.unitFiles p.1
        = readFile stT1.disk.unitFiles p.1 := by
      intro q hq
      have hqne : q.1 ≠ sid := by
        intro heq
        rw [List.map_cons, List.nodup_cons] at hfst
        have hqm := List.mem_map_of_mem Prod.fst hq
        rw [heq] at hqm
        exact hfst.1 hqm
      have hT := (unitSessStep_files env reload reqIds missing sid g stT log).1 q.1 hqne
      rw [hstepT] at hT
      rw [hdiskF1, hT]
      exact hfiles q (List.mem_cons_of_mem _ hq)
    cases resF with
    | error e =>
      have : Except.error e = resT := hres1
      subst this
      rw [getUnitDataLoop_cons_error env reload reqIds missing sid g rest stF log acc hstepF,
        getUnitDataLoop_cons_error env reload reqIds missing sid g rest stT log acc hstepT]
      exact ⟨hld1, hlog1, rfl⟩
    | ok rows =>
      have : Except.ok rows = resT := hres1
      subst this
      subst hlog1
      rw [getUnitDataLoop_cons_ok env reload reqIds missing sid g rest stF log acc hstepF,
        getUnitDataLoop_cons_ok env reload reqIds missing sid g rest stT log acc hstepT]
      rw [List.map_cons, List.nodup_cons] at hfst
      exact ih _ _ _ _ hfst.2 hld1 hslF1 hfiles1

theorem fpSessStep_files (env : RemoteEnv) (reload : Bool)
    (reqIds missing : List Nat) (sid : Nat) (g : List Nat) (st : DBState) (log : FetchLog) :
    (∀ k, k ≠ sid →
      readFile (fpSessStep env reload reqIds missing sid g st log).1.disk.fpFiles k
        = readFile st.disk.fpFiles k) ∧
    (fpSessStep env reload reqIds missing sid g st log).1.disk.unitFiles = st.disk.unitFiles ∧
    (fpSessStep env reload reqIds missing sid g st log).1.disk.behFiles = st.disk.behFiles := by
  simp only [fpSessStep]
  split
  · split <;> exact ⟨fun k _ => rfl, rfl, rfl⟩
  · split
    · exact ⟨fun k _ => rfl, rfl, rfl⟩
    · constructor
      · intro k hk
        rw [updateLocalFp_fpFiles]
        split
        · exact readFile_writeFile_ne _ _ _ _ (Ne.symm hk)
        · rfl
      · constructor
        · rw [updateLocalFp_unitFiles]
          split <;> rfl
        · rw [updateLocalFp_behFiles]
          split <;> rfl

theorem fpSessStep_saveCongr (env : RemoteEnv) (reload : Bool)
    (reqIds missing : List Nat) (sid : Nat) (g : List Nat) (stF stT : DBState)
    (log : FetchLog) (hld : stF.localData = stT.localData)
    (hfile : readFile stF.disk.fpFiles sid = readFile stT.disk.fpFiles sid) :
    (fpSessStep env reload reqIds missing sid g stF log).1.localData
      = (fpSessStep env reload reqIds missing sid g stT log).1.localData ∧
    (fpSessStep env reload reqIds missing sid g stF log).2.1
      = (fpSessStep env reload reqIds missing sid g stT log).2.1 ∧
    (fpSessStep env reload reqIds missing sid g stF log).2.2
      = (fpSessStep env reload reqIds missing sid g stT log).2.2 := by
  simp only [fpSessStep, hfile]
  by_cases hne : (intersect1d g missing).isEmpty = true
  · rw [if_pos hne, if_pos hne]
    rcases hflT : readFile stT.disk.fpFiles sid with _ | part
    · exact ⟨hld, rfl, rfl⟩
    · exact ⟨hld, rfl, rfl⟩
  · rw [if_neg hne, if_neg hne]
    rcases hf : env.fetchFp (intersect1d g missing) with e | raw
    · exact ⟨hld, rfl, rfl⟩
    · refine ⟨?_, rfl, rfl⟩
      rw [updateLocalFp_localData, updateLocalFp_localData]
      have hF : ∀ c : Prop, ∀ h : Decidable c, ∀ (st : DBState) (d : DiskState),
          (if c then { st with disk := d } else st).localData = st.localData := by
        intro c h st d
        split <;> rfl
      rw [hF, hF, hld]

theorem getFpDataLoop_saveCongr (env : RemoteEnv) (reload : Bool)
    (reqIds missing : List Nat) (gs : List (Nat × List Nat))
    (stF stT : DBState) (log : FetchLog) (acc : List FpRow)
    (hfst : (gs.map Prod.fst).Nodup)
    (hld : stF.localData = stT.localData)
    (hslF : stF.saveLocally = false)
    (hfiles : ∀ p ∈ gs, readFile stF.disk.fpFiles p.1 = readFile stT.disk.fpFiles p.1) :
    (getFpDataLoop env reload reqIds missing gs stF log acc).state.localData
      = (getFpDataLoop env reload reqIds missing gs stT log acc).state.localData ∧
    (getFpDataLoop env reload reqIds missing gs stF log acc).log
      = (getFpDataLoop env reload reqIds missing gs stT log acc).log ∧
    (getFpDataLoop env reload reqIds missing gs stF log acc).result
      = (getFpDataLoop env reload reqIds missing gs stT log acc).result := by
  induction gs generalizing stF stT log acc with
  | nil => exact ⟨hld, rfl, rfl⟩
  | cons p rest ih =>
    obtain ⟨sid, g⟩ := p
    have hstepCongr := fpSessStep_saveCongr env reload reqIds missing sid g stF stT log
      hld (hfiles (sid, g) (List.mem_cons_self _ _))
    rcases hstepF : fpSessStep env reload reqIds missing sid g stF log
      with ⟨stF1, logF1, resF⟩
    rcases hstepT : fpSessStep env reload reqIds missing sid g stT log
      with ⟨stT1, logT1, resT⟩
    rw [hstepF, hstepT] at hstepCongr
    obtain ⟨hld1, hlog1, hres1⟩ := hstepCongr
    have hslF1 : stF1.saveLocally = false := by
      have h3 := fpSessStep_saveLocally env reload reqIds missing sid g stF log
      rw [hstepF] at h3
      rw [h3, hslF]
    have hdiskF1 : stF1.disk = stF.disk := by
      have h3 := fpSessStep_disk_noSave env reload reqIds missing sid g stF log hslF
      rw [hstepF] at h3
      exact h3
    have hfiles1 : ∀ p ∈ rest, readFile stF1.disk.fpFiles p.1
        = readFile stT1.disk.fpFiles p.1 := by
      intro q hq
      have hqne : q.1 ≠ sid := by
        intro heq
        rw [List.map_cons, List.nodup_cons] at hfst
        have hqm := List.mem_map_of_mem Prod.fst hq
        rw [heq] at hqm
        exact hfst.1 hqm
      have hT := (fpSessStep_files env reload reqIds missing sid g stT log).1 q.1 hqne
      rw [hstepT] at hT
      rw [hdiskF1, hT]
      exact hfiles q (List.mem_cons_of_mem _ hq)
    cases resF with
    | error e =>
      have : Except.error e = resT := hres1
      subst this
      rw [getFpDataLoop_cons_error env reload reqIds missing sid g rest stF log acc hstepF,
        getFpDataLoop_cons_error env reload reqIds missing sid g rest stT log acc hstepT]
      exact ⟨hld1, hlog1, rfl⟩
    | ok rows =>
      have : Except.ok rows = resT := hres1
      subst this
      subst hlog1
      rw [getFpDataLoop_cons_ok env reload reqIds missing sid g rest stF log acc hstepF,
        getFpDataLoop_cons_ok env reload reqIds missing sid g rest stT log acc hstepT]
      rw [List.map_cons, List.nodup_cons] at hfst
      exact ih _ _ _ _ hfst.2 hld1 hslF1 hfiles1


theorem setDisk_localData (c : Prop) [Decidable c] (st : DBState) (d : DiskState) :
    (if c then { st with disk := d } else st).localData = st.localData := by
  split <;> rfl

theorem behSessStep_saveCongr (env : RemoteEnv) (reload : Bool) (sid : Nat)
    (stF stT : DBState) (log : FetchLog)
    (hld : stF.localData = stT.localData)
    (hfile : readFile stF.disk.behFiles sid = readFile stT.disk.behFiles sid) :
    (behSessStep env reload sid stF log).1.localData
      = (behSessStep env reload sid stT log).1.localData ∧
    (behSessStep env reload sid stF log).2.1 = (behSessStep env reload sid stT log).2.1 ∧
    (behSessStep env reload sid stF log).2.2 = (behSessStep env reload sid stT log).2.2 := by
  have hfetch : ∀ www : Unit, (match env.fetchSess sid with
      | Except.error e => (stF, { log with fetched := log.fetched ++ [[sid]] }, Except.error e)
      | Except.ok raw =>
        if raw.isEmpty then (stF, { log with fetched := log.fetched ++ [[sid]] }, Except.ok [])
        else
          let sessData := env.formatSess raw
          let st :=
            if stF.saveLocally then
              { stF with disk :=
                  { stF.disk with behFiles := writeFile stF.disk.behFiles sid sessData } }
            else stF
          let st := updateLocalSessions st sessData
          (st, { log with fetched := log.fetched ++ [[sid]] }, Except.ok sessData)).1.localData
      = (match env.fetchSess sid with
      | Except.error e => (stT, { log with fetched := log.fetched ++ [[sid]] }, Except.error e)
      | Except.ok raw =>
        if raw.isEmpty then (stT, { log with fetched := log.fetched ++ [[sid]] }, Except.ok [])
        else
          let sessData := env.formatSess raw
          let st :=
            if stT.saveLocally then
              { stT with disk :=
                  { stT.disk with behFiles := writeFile stT.disk.behFiles sid sessData } }
            else stT
          let st := updateLocalSessions st sessData
          (st, { log with fetched := log.fetched ++ [[sid]] }, Except.ok sessData)).1.localData ∧
      (match env.fetchSess sid with
      | Except.error e => (stF, { log with fetched := log.fetched ++ [[sid]] }, Except.error e)
      | Except.ok raw =>
        if raw.isEmpty then (stF, { log with fetched := log.fetched ++ [[sid]] }, Except.ok [])
        else
          let sessData := env.formatSess raw
          let st :=
            if stF.saveLocally then
              { stF with disk :=
                  { stF.disk with behFiles := writeFile stF.disk.behFiles sid sessData } }
            else stF
          let st := updateLocalSessions st sessData
          (st, { log with fetched := log.fetched ++ [[sid]] }, Except.ok sessData)).2
      = (match env.fetchSess sid with
      | Except.error e => (stT, { log with fetched := log.fetched ++ [[sid]] }, Except.error e)
      | Except.ok raw =>
        if raw.isEmpty then (stT, { log with fetched := log.fetched ++ [[sid]] }, Except.ok [])
        else
          let sessData := env.formatSess raw
          let st :=
            if stT.saveLocally then
              { stT with disk :=
                  { stT.disk with behFiles := writeFile stT.disk.behFiles sid sessData } }
            else stT
          let st := updateLocalSessions st sessData
          (st, { log with fetched := log.fetched ++ [[sid]] }, Except.ok sessData)).2 := by
    intro www
    rcases hf : env.fetchSess sid with e | raw
    · exact ⟨hld, by trivial⟩
    · by_cases hemp : raw.isEmpty = true
      · simp only [if_pos hemp]
        exact ⟨hld, by trivial⟩
      · simp only [if_neg hemp]
        refine ⟨?_, by trivial⟩
        rw [updateLocalSessions_localData, updateLocalSessions_localData,
          setDisk_localData, setDisk_localData, hld]
  rcases hflT : readFile stT.disk.behFiles sid with _ | part
  · cases reload
    · simp only [behSessStep, hfile, hflT]
      obtain ⟨h1, h2⟩ := hfetch ()
      exact ⟨h1, congrArg Prod.fst h2, congrArg Prod.snd h2⟩
    · simp only [behSessStep, hfile, hflT]
      obtain ⟨h1, h2⟩ := hfetch ()
      exact ⟨h1, congrArg Prod.fst h2, congrArg Prod.snd h2⟩
  · cases reload
    · simp only [behSessStep, hfile, hflT]
      exact ⟨hld, by trivial, by trivial⟩
    · simp only [behSessStep, hfile, hflT]
      obtain ⟨h1, h2⟩ := hfetch ()
      exact ⟨h1, congrArg Prod.fst h2, congrArg Prod.snd h2⟩

theorem getBehaviorDataLoop_saveCongr (env : RemoteEnv) (reload : Bool) (ids : List Nat)
    (stF stT : DBState) (log : FetchLog) (acc : List BehRow)
    (hnd : ids.Nodup)
    (hld : stF.localData = stT.localData)
    (hslF : stF.saveLocally = false)
    (hfiles : ∀ s ∈ ids, readFile stF.disk.behFiles s = readFile stT.disk.behFiles s) :
    (getBehaviorDataLoop env reload ids stF log acc).state.localData
      = (getBehaviorDataLoop env reload ids stT log acc).state.localData ∧
    (getBehaviorDataLoop env reload ids stF log acc).log
      = (getBehaviorDataLoop env reload ids stT log acc).log ∧
    (getBehaviorDataLoop env reload ids stF log acc).result
      = (getBehaviorDataLoop env reload ids stT log acc).result := by
  induction ids generalizing stF stT log acc with
  | nil => exact ⟨hld, rfl, rfl⟩
  | cons sid rest ih =>
    rw [List.nodup_cons] at hnd
    have hstepCongr := behSessStep_saveCongr env reload sid stF stT log
      hld (hfiles sid (List.mem_cons_self _ _))
    rcases hstepF : behSessStep env reload sid stF log with ⟨stF1, logF1, resF⟩
    rcases hstepT : behSessStep env reload sid stT log with ⟨stT1, logT1, resT⟩
    rw [hstepF, hstepT] at hstepCongr
    obtain ⟨hld1, hlog1, hres1⟩ := hstepCongr
    have hslF1 : stF1.saveLocally = false := by
      have h3 := behSessStep_saveLocally env reload sid stF log
      rw [hstepF] at h3
      rw [h3, hslF]
    have hdiskF1 : stF1.disk = stF.disk := by
      have h3 := behSessStep_disk_noSave env reload sid stF log hslF
      rw [hstepF] at h3
      exact h3
    have hfiles1 : ∀ s ∈ rest, readFile stF1.disk.behFiles s
        = readFile stT1.disk.behFiles s := by
      intro s hs
      have hsne : s ≠ sid := fun heq => hnd.1 (heq ▸ hs)
      have hT := behSessStep_behFiles_ne env reload sid stT log s hsne
      rw [hstepT] at hT
      rw [hdiskF1, hT]
      exact hfiles s (List.mem_cons_of_mem _ hs)
    cases resF with
    | error e =>
      have : Except.error e = resT := hres1
      subst this
      rw [getBehaviorDataLoop_cons_error env reload sid rest stF log acc hstepF,
        getBehaviorDataLoop_cons_error env reload sid rest stT log acc hstepT]
      exact ⟨hld1, hlog1, rfl⟩
    | ok rows =>
      have : Except.ok rows = resT := hres1
      subst this
      subst hlog1
      rw [getBehaviorDataLoop_cons_ok env reload sid rest stF log acc hstepF,
        getBehaviorDataLoop_cons_ok env reload sid rest stT log acc hstepT]
      exact ih _ _ _ _ hnd.2 hld1 hslF1 hfiles1

/-! ## The unit pipeline depends on the requested ids only through membership -/

theorem unitSessStep_memCongr (env : RemoteEnv) (reload : Bool)
    (reqIds reqIds' missing missing' : List Nat) (sid : Nat) (g : List Nat)
    (st : DBState) (log : FetchLog)
    (hreq : ∀ i : Nat, i ∈ reqIds ↔ i ∈ reqIds')
    (hmiss : ∀ i : Nat, i ∈ missing ↔ i ∈ missing') :
    unitSessStep env reload reqIds missing sid g st log
      = unitSessStep env reload reqIds' missing' sid g st log := by
  have hint : intersect1d g missing = intersect1d g missing' := by
    unfold intersect1d
    refine List.filter_congr (fun x _ => ?_)
    simp only [decide_eq_decide]
    exact hmiss x
  have hfilter : ∀ l : List UnitRow,
      l.filter (fun r => decide (r.unitid ∈ reqIds))
        = l.filter (fun r => decide (r.unitid ∈ reqIds')) := by
    intro l
    refine List.filter_congr (fun x _ => ?_)
    simp only [decide_eq_decide]
    exact hreq x.unitid
  simp only [unitSessStep, hint, hfilter]

theorem unitSessStep_logCongr (env : RemoteEnv) (reload : Bool)
    (reqIds missing : List Nat) (sid : Nat) (g : List Nat) (st : DBState)
    (log1 log2 : FetchLog) (hfet : log1.fetched = log2.fetched) :
    (unitSessStep env reload reqIds missing sid g st log1).1
      = (unitSessStep env reload reqIds missing sid g st log2).1 ∧
    (unitSessStep env reload reqIds missing sid g st log1).2.2
      = (unitSessStep env reload reqIds missing sid g st log2).2.2 ∧
    (unitSessStep env reload reqIds missing sid g st log1).2.1.fetched
      = (unitSessStep env reload reqIds missing sid g st log2).2.1.fetched := by
  simp only [unitSessStep]
  by_cases hne : (intersect1d g missing).isEmpty = true
  · rw [if_pos hne, if_pos hne]
    rcases hflT : readFile st.disk.unitFiles sid with _ | part
    · exact ⟨rfl, by trivial, hfet⟩
    · exact ⟨rfl, by trivial, hfet⟩
  · rw [if_neg hne, if_neg hne]
    rcases hf : env.fetchUnits (intersect1d g missing) with e | raw
    · exact ⟨rfl, by trivial, by rw [hfet]⟩
    · exact ⟨rfl, by trivial, by rw [hfet]⟩

theorem getUnitDataLoop_memCongr (env : RemoteEnv) (reload : Bool)
    (reqIds reqIds' missing missing' : List Nat) (gs : List (Nat × List Nat))
    (st : DBState) (log : FetchLog) (acc : List UnitRow)
    (hreq : ∀ i : Nat, i ∈ reqIds ↔ i ∈ reqIds')
    (hmiss : ∀ i : Nat, i ∈ missing ↔ i ∈ missing') :
    getUnitDataLoop env reload reqIds missing gs st log acc
      = getUnitDataLoop env reload reqIds' missing' gs st log acc := by
  induction gs generalizing st log acc with
  | nil => rfl
  | cons p rest ih =>
    obtain ⟨sid, g⟩ := p
    simp only [getUnitDataLoop]
    rw [unitSessStep_memCongr env reload reqIds reqIds' missing missing' sid g st log
      hreq hmiss]
    rcases hstep : unitSessStep env reload reqIds' missing' sid g st log with ⟨st1, log1, res⟩
    cases res with
    | error e => rfl
    | ok rows => exact ih _ _ _

theorem getUnitDataLoop_logCongr (env : RemoteEnv) (reload : Bool)
    (reqIds missing : List Nat) (gs : List (Nat × List Nat))
    (st : DBState) (log1 log2 : FetchLog) (acc : List UnitRow)
    (hfet : log1.fetched = log2.fetched) :
    (getUnitDataLoop env reload reqIds missing gs st log1 acc).state
      = (getUnitDataLoop env reload reqIds missing gs st log2 acc).state ∧
    (getUnitDataLoop env reload reqIds missing gs st log1 acc).result
      = (getUnitDataLoop env reload reqIds missing gs st log2 acc).result ∧
    (getUnitDataLoop env reload reqIds missing gs st log1 acc).log.fetched
      = (getUnitDataLoop env reload reqIds missing gs st log2 acc).log.fetched := by
  induction gs generalizing st log1 log2 acc with
  | nil => exact ⟨rfl, rfl, hfet⟩
  | cons p rest ih =>
    obtain ⟨sid, g⟩ := p
    have hstepCongr := unitSessStep_logCongr env reload reqIds missing sid g st
      log1 log2 hfet
    rcases hstep1 : unitSessStep env reload reqIds missing sid g st log1
      with ⟨stA, logA, resA⟩
    rcases hstep2 : unitSessStep env reload reqIds missing sid g st log2
      with ⟨stB, logB, resB⟩
    rw [hstep1, hstep2] at hstepCongr
    obtain ⟨hstAB, hresAB, hfetAB⟩ := hstepCongr
    subst hstAB
    cases resA with
    | error e =>
      have : Except.error e = resB := hresAB
      subst this
      rw [getUnitDataLoop_cons_error env reload reqIds missing sid g rest st log1 acc hstep1,
        getUnitDataLoop_cons_error env reload reqIds missing sid g rest st log2 acc hstep2]
      exact ⟨rfl, rfl, hfetAB⟩
    | ok rows =>
      have : Except.ok rows = resB := hresAB
      subst this
      rw [getUnitDataLoop_cons_ok env reload reqIds missing sid g rest st log1 acc hstep1,
        getUnitDataLoop_cons_ok env reload reqIds missing sid g rest st log2 acc hstep2]
      exact ih _ _ _ _ hfetAB

/-! ## Unfolding and shared facts about the top-level get operations -/

theorem getUnitData_unfold (env : RemoteEnv) (st : DBState) (ids : List Nat)
    (reload : Bool) (missing : List Nat)
    (hmiss : missing = if reload then sortNat ids
      else setdiff1d (sortNat ids) (st.localData.units.map (fun r => r.unitid))) :
    getUnitData env st ids reload
      = (match getUnitDataLoop env reload (sortNat ids) missing
            (groupByParent env.unitSess (sortNat ids)) st ⟨[], [sortNat ids]⟩ [] with
        | ⟨st2, log2, Except.ok rows⟩ =>
          if (groupByParent env.unitSess (sortNat ids)).isEmpty
          then ⟨st2, log2, Except.error DbErr.keyError⟩
          else ⟨st2, log2, Except.ok (sortOn (fun r => r.unitid) rows)⟩
        | r => r) := by
  subst hmiss
  rfl

theorem getFpData_unfold (env : RemoteEnv) (st : DBState) (ids : List Nat)
    (reload : Bool) (missing : List Nat)
    (hmiss : missing = if reload then sortNat ids
      else setdiff1d (sortNat ids) (st.localData.fpData.map (fun r => r.fpid))) :
    getFpData env st ids reload
      = (match getFpDataLoop env reload (sortNat ids) missing
            (groupByParent env.fpSess (sortNat ids)) st ⟨[], [sortNat ids]⟩ [] with
        | ⟨st2, log2, Except.ok rows⟩ =>
          if (groupByParent env.fpSess (sortNat ids)).isEmpty
          then ⟨st2, log2, Except.error DbErr.keyError⟩
          else ⟨st2, log2, Except.ok rows⟩
        | r => r) := by
  subst hmiss
  rfl

theorem getBehaviorData_unfold (env : RemoteEnv) (st : DBState) (ids : List Nat)
    (reload : Bool) :
    getBehaviorData env st ids reload
      = (match getBehaviorDataLoop env reload (sortNat ids) st emptyLog [] with
        | ⟨st2, log2, Except.ok beh⟩ =>
          ⟨st2, log2, Except.ok (if beh.isEmpty then beh
            else sortOn2 (fun r => r.sessid) (fun r => r.trial) beh)⟩
        | r => r) := rfl

theorem getUnitData_state (env : RemoteEnv) (st : DBState) (ids : List Nat)
    (reload : Bool) (missing : List Nat)
    (hmiss : missing = if reload then sortNat ids
      else setdiff1d (sortNat ids) (st.localData.units.map (fun r => r.unitid))) :
    (getUnitData env st ids reload).state
      = (getUnitDataLoop env reload (sortNat ids) missing
          (groupByParent env.unitSess (sortNat ids)) st ⟨[], [sortNat ids]⟩ []).state := by
  rw [getUnitData_unfold env st ids reload missing hmiss]
  rcases getUnitDataLoop env reload (sortNat ids) missing
      (groupByParent env.unitSess (sortNat ids)) st ⟨[], [sortNat ids]⟩ []
    with ⟨st2, log2, res⟩
  cases res with
  | error e => rfl
  | ok rows =>
    split
    · rename_i st3 log3 rows3 heq
      injection heq with h1 h2 h3
      injection h3 with h3
      subst h1
      subst h2
      subst h3
      split <;> rfl
    · rename_i hno
      exact absurd rfl (hno st2 log2 rows)

theorem getUnitData_log (env : RemoteEnv) (st : DBState) (ids : List Nat)
    (reload : Bool) (missing : List Nat)
    (hmiss : missing = if reload then sortNat ids
      else setdiff1d (sortNat ids) (st.localData.units.map (fun r => r.unitid))) :
    (getUnitData env st ids reload).log
      = (getUnitDataLoop env reload (sortNat ids) missing
          (groupByParent env.unitSess (sortNat ids)) st ⟨[], [sortNat ids]⟩ []).log := by
  rw [getUnitData_unfold env st ids reload missing hmiss]
  rcases getUnitDataLoop env reload (sortNat ids) missing
      (groupByParent env.unitSess (sortNat ids)) st ⟨[], [sortNat ids]⟩ []
    with ⟨st2, log2, res⟩
  cases res with
  | error e => rfl
  | ok rows =>
    split
    · rename_i st3 log3 rows3 heq
      injection heq with h1 h2 h3
      injection h3 with h3
      subst h1
      subst h2
      subst h3
      split <;> rfl
    · rename_i hno
      exact absurd rfl (hno st2 log2 rows)

theorem getUnitData_result (env : RemoteEnv) (st : DBState) (ids : List Nat)
    (reload : Bool) (missing : List Nat)
    (hmiss : missing = if reload then sortNat ids
      else setdiff1d (sortNat ids) (st.localData.units.map (fun r => r.unitid))) :
    (getUnitData env st ids reload).result
      = (match (getUnitDataLoop env reload (sortNat ids) missing
            (groupByParent env.unitSess (sortNat ids)) st ⟨[], [sortNat ids]⟩ []).result with
        | Except.error e => Except.error e
        | Except.ok rows =>
          if (groupByParent env.unitSess (sortNat ids)).isEmpty
          then Except.error DbErr.keyError
          else Except.ok (sortOn (fun r => r.unitid) rows)) := by
  rw [getUnitData_unfold env st ids reload missing hmiss]
  rcases getUnitDataLoop env reload (sortNat ids) missing
      (groupByParent env.unitSess (sortNat ids)) st ⟨[], [sortNat ids]⟩ []
    with ⟨st2, log2, res⟩
  cases res with
  | error e => rfl
  | ok rows =>
    exact apply_ite (fun rr : RunResult (List UnitRow) => rr.result) _ _ _

theorem getFpData_log (env : RemoteEnv) (st : DBState) (ids : List Nat)
    (reload : Bool) (missing : List Nat)
    (hmiss : missing = if reload then sortNat ids
      else setdiff1d (sortNat ids) (st.localData.fpData.map (fun r => r.fpid))) :
    (getFpData env st ids reload).log
      = (getFpDataLoop env reload (sortNat ids) missing
          (groupByParent env.fpSess (sortNat ids)) st ⟨[], [sortNat ids]⟩ []).log := by
  rw [getFpData_unfold env st ids reload missing hmiss]
  rcases getFpDataLoop env reload (sortNat ids) missing
      (groupByParent env.fpSess (sortNat ids)) st ⟨[], [sortNat ids]⟩ []
    with ⟨st2, log2, res⟩
  cases res with
  | error e => rfl
  | ok rows =>
    split
    · rename_i st3 log3 rows3 heq
      injection heq with h1 h2 h3
      injection h3 with h3
      subst h1
      subst h2
      subst h3
      split <;> rfl
    · rename_i hno
      exact absurd rfl (hno st2 log2 rows)

/-- Every id list handed to the unit row fetch during `get_unit_data` with
`reload=False` contains only ids absent from the units index table. -/
theorem getUnitData_fetched_missing (env : RemoteEnv) (st : DBState) (ids : List Nat) :
    ∀ l ∈ (getUnitData env st ids false).log.fetched, ∀ i ∈ l,
      i ∉ st.localData.units.map (fun r => r.unitid) := by
  intro l hl i hi
  rw [getUnitData_log env st ids false
    (setdiff1d (sortNat ids) (st.localData.units.map (fun r => r.unitid))) (by simp)] at hl
  rcases getUnitDataLoop_fetched env false (sortNat ids) _ _ st ⟨[], [sortNat ids]⟩ [] hl
    with h2 | ⟨p, _, rfl⟩
  · simp at h2
  · have := (mem_intersect1d.mp hi).2
    exact (mem_setdiff1d.mp this).2

/-- Every id list handed to the fp row fetch during `get_fp_data` with
`reload=False` contains only ids absent from the fp index table. -/
theorem getFpData_fetched_missing (env : RemoteEnv) (st : DBState) (ids : List Nat) :
    ∀ l ∈ (getFpData env st ids false).log.fetched, ∀ i ∈ l,
      i ∉ st.localData.fpData.map (fun r => r.fpid) := by
  intro l hl i hi
  rw [getFpData_log env st ids false
    (setdiff1d (sortNat ids) (st.localData.fpData.map (fun r => r.fpid))) (by simp)] at hl
  rcases getFpDataLoop_fetched env false (sortNat ids) _ _ st ⟨[], [sortNat ids]⟩ [] hl
    with h2 | ⟨p, _, rfl⟩
  · simp at h2
  · have := (mem_intersect1d.mp hi).2
    exact (mem_setdiff1d.mp this).2

/-- `get_unit_data` passes the full sorted request list to the parent-session
resolution `db_access.get_unit_sess_ids`. -/
theorem getUnitData_resolved (env : RemoteEnv) (st : DBState) (ids : List Nat)
    (reload : Bool) :
    (getUnitData env st ids reload).log.resolved = [sortNat ids] := by
  cases reload with
  | false =>
    rw [getUnitData_log env st ids false
      (setdiff1d (sortNat ids) (st.localData.units.map (fun r => r.unitid))) (by simp),
      getUnitDataLoop_resolved]
  | true =>
    rw [getUnitData_log env st ids true (sortNat ids) (by simp), getUnitDataLoop_resolved]

/-- `get_fp_data` passes the full sorted request list to the parent-session
resolution `db_access.get_fp_sess_ids`. -/
theorem getFpData_resolved (env : RemoteEnv) (st : DBState) (ids : List Nat)
    (reload : Bool) :
    (getFpData env st ids reload).log.resolved = [sortNat ids] := by
  cases reload with
  | false =>
    rw [getFpData_log env st ids false
      (setdiff1d (sortNat ids) (st.localData.fpData.map (fun r => r.fpid))) (by simp),
      getFpDataLoop_resolved]
  | true =>
    rw [getFpData_log env st ids true (sortNat ids) (by simp), getFpDataLoop_resolved]

theorem getBehaviorData_log (env : RemoteEnv) (st : DBState) (ids : List Nat)
    (reload : Bool) :
    (getBehaviorData env st ids reload).log
      = (getBehaviorDataLoop env reload (sortNat ids) st emptyLog []).log := by
  rw [getBehaviorData_unfold]
  rcases getBehaviorDataLoop env reload (sortNat ids) st emptyLog [] with ⟨st2, log2, res⟩
  cases res with
  | error e => rfl
  | ok beh => rfl

theorem getBehaviorData_state (env : RemoteEnv) (st : DBState) (ids : List Nat)
    (reload : Bool) :
    (getBehaviorData env st ids reload).state
      = (getBehaviorDataLoop env reload (sortNat ids) st emptyLog []).state := by
  rw [getBehaviorData_unfold]
  rcases getBehaviorDataLoop env reload (sortNat ids) st emptyLog [] with ⟨st2, log2, res⟩
  cases res with
  | error e => rfl
  | ok beh => rfl

theorem sortNat_idem (l : List Nat) : sortNat (sortNat l) = sortNat l :=
  List.Sorted.insertionSort_eq (sortOn_sorted (fun x => x) l)

theorem dedupSorted_sortNat (l : List Nat) : dedupSorted (sortNat l) = dedupSorted l := by
  unfold dedupSorted
  rw [sortNat_idem]

theorem setdiff1d_congr {a a' : List Nat} (b : List Nat)
    (h : dedupSorted a = dedupSorted a') : setdiff1d a b = setdiff1d a' b := by
  unfold setdiff1d
  rw [h]

/-! ## The claims -/

/-- C10: for every remote environment and every state of the local database,
`get_local_fp_data()` raises a pandas `KeyError` — it selects the column
`'unitid'` from the fp index table, whose columns are `fpid`, `subjid`,
`sessid` — leaving the state untouched, and therefore never returns the
locally stored fp data. -/
theorem claim_C10_getLocalFpData_raises (env : RemoteEnv) (st : DBState) :
    getLocalFpData env st = ⟨st, emptyLog, Except.error DbErr.keyError⟩ := rfl

/-- C2: the Cold-Start Reconciler (`__load_local_data`, rebuild branch)
raises a `KeyError` as soon as a single fp partition exists on disk, because
it passes fp partitions to `__update_local_sessions`, which selects the
missing `sessiondate` column; so it cannot reproduce the index built
incrementally (in particular it never populates the fp index table). -/
theorem claim_C2_rebuild_raises (disk : DiskState) (f : Nat × List FpRow)
    (rest : List (Nat × List FpRow)) (h : disk.fpFiles = f :: rest) :
    rebuildLocalData disk = Except.error DbErr.keyError := by
  unfold rebuildLocalData
  rw [h]
  rfl

/-- Witness for C2: a disk holding exactly one fp partition makes the
reconciler raise. -/
theorem claim_C2_rebuild_raises_witness :
    rebuildLocalData cDiskFp = Except.error DbErr.keyError :=
  claim_C2_rebuild_raises cDiskFp (30, [⟨7, 5, 30, 2, Side.left, 47⟩]) [] rfl

/-- C1 (counterexample): with units 101 and 102 already recorded in the local
index, `get_unit_data([101,102,103], reload=False)` asks the parent-session
resolution about the full list `[101,102,103]`, not only about the missing
id 103 — so the resolution query is not restricted to ids absent from the
index. -/
theorem claim_C1_counterexample :
    ¬ (∀ l ∈ (getUnitData cEnvA cStA [101, 102, 103] false).log.resolved,
        ∀ i ∈ l, i ∉ cStA.localData.units.map (fun r => r.unitid)) := by
  decide

/-- C1 (amended): with `reload=False`, the row fetches of `get_unit_data`
and `get_fp_data` are invoked only for ids absent from the corresponding
index table, and the behavioral fetch of `get_behavior_data` (for a
duplicate-free request) only for sessions with no partition file on disk;
but the parent-session resolution always receives the full sorted request
list. -/
theorem claim_C1_amended (env : RemoteEnv) (st : DBState) (ids : List Nat) :
    (∀ l ∈ (getUnitData env st ids false).log.fetched, ∀ i ∈ l,
        i ∉ st.localData.units.map (fun r => r.unitid)) ∧
    (getUnitData env st ids false).log.resolved = [sortNat ids] ∧
    (∀ l ∈ (getFpData env st ids false).log.fetched, ∀ i ∈ l,
        i ∉ st.localData.fpData.map (fun r => r.fpid)) ∧
    (getFpData env st ids false).log.resolved = [sortNat ids] ∧
    (ids.Nodup → ∀ l ∈ (getBehaviorData env st ids false).log.fetched,
        ∃ s ∈ ids, l = [s] ∧ readFile st.disk.behFiles s = none) := by
  refine ⟨getUnitData_fetched_missing env st ids,
    getUnitData_resolved env st ids false,
    getFpData_fetched_missing env st ids,
    getFpData_resolved env st ids false, ?_⟩
  intro hnd l hl
  rw [getBehaviorData_log] at hl
  have hnd2 : (sortNat ids).Nodup := ((sortOn_perm _ _).nodup_iff).mpr hnd
  rcases getBehaviorDataLoop_fetched env (sortNat ids) st emptyLog [] hnd2 hl
    with h2 | ⟨s, hs, hls, hfile⟩
  · simp [emptyLog] at h2
  · exact ⟨s, mem_sortNat.mp hs, hls, hfile⟩

/-- Witness for C1 (amended) at a concrete instance. -/
theorem claim_C1_amended_witness :
    (getUnitData cEnvA cStA [101, 102, 103] false).log.resolved = [[101, 102, 103]] := by
  have h := (claim_C1_amended cEnvA cStA [101, 102, 103]).2.1
  rw [h]
  decide

/-- C3 (counterexample): units 101 and 102 are cached; after
`get_unit_data([101], reload=True)` the units index table holds two rows
with unitid 101 — the merge appended a second copy instead of deduplicating
or replacing. -/
theorem claim_C3_counterexample :
    ¬ ((getUnitData cEnvA cStA [101] true).state.localData.units.map
        (fun r => r.unitid)).Nodup := by
  decide

/-- C6 (counterexample): with unit 1 in session 2 and unit 2 in session 1,
`get_unit_data([1,2])` returns the rows sorted by unit id only — the row of
session 2 precedes the row of session 1, so the result is not sorted by
session id first. -/
theorem claim_C6_counterexample :
    (getUnitData cEnvOrd cSt0 [1, 2] false).result
        = Except.ok [⟨1, 5, 2, 0, 0, 0⟩, ⟨2, 5, 1, 0, 0, 0⟩] ∧
      ¬ List.Sorted (keyLe2 (fun r : UnitRow => r.sessid) (fun r => r.unitid))
        [⟨1, 5, 2, 0, 0, 0⟩, ⟨2, 5, 1, 0, 0, 0⟩] := by
  constructor
  · rfl
  · decide

/-- C6 (amended): behavioral results are sorted by `(sessid, trial)`, but
unit results are sorted by `unitid` only (not by session id first). -/
theorem claim_C6_amended (env : RemoteEnv) (st : DBState) (ids : List Nat)
    (reload : Bool) :
    (∀ rows, (getBehaviorData env st ids reload).result = Except.ok rows →
        List.Sorted (keyLe2 (fun r : BehRow => r.sessid) (fun r => r.trial)) rows) ∧
    (∀ rows, (getUnitData env st ids reload).result = Except.ok rows →
        List.Sorted (keyLe (fun r : UnitRow => r.unitid)) rows) := by
  constructor
  · intro rows h
    rw [getBehaviorData_unfold] at h
    rcases hloop : getBehaviorDataLoop env reload (sortNat ids) st emptyLog []
      with ⟨st2, log2, res⟩
    rw [hloop] at h
    cases res with
    | error e => simp at h
    | ok beh =>
      have h2 : Except.ok (if beh.isEmpty then beh
          else sortOn2 (fun r : BehRow => r.sessid) (fun r => r.trial) beh)
          = Except.ok rows := h
      injection h2 with h2
      subst h2
      by_cases hemp : beh.isEmpty = true
      · rw [if_pos hemp, List.isEmpty_iff.mp hemp]
        exact List.sorted_nil
      · rw [if_neg hemp]
        exact sortOn2_sorted _ _ _
  · intro rows h
    rw [getUnitData_unfold env st ids reload
      (if reload then sortNat ids
        else setdiff1d (sortNat ids) (st.localData.units.map (fun r => r.unitid))) rfl] at h
    rcases hloop : getUnitDataLoop env reload (sortNat ids)
        (if reload then sortNat ids
          else setdiff1d (sortNat ids) (st.localData.units.map (fun r => r.unitid)))
        (groupByParent env.unitSess (sortNat ids)) st ⟨[], [sortNat ids]⟩ []
      with ⟨st2, log2, res⟩
    rw [hloop] at h
    cases res with
    | error e => simp at h
    | ok rows2 =>
      have h2 : (if (groupByParent env.unitSess (sortNat ids)).isEmpty = true
          then (⟨st2, log2, Except.error DbErr.keyError⟩ : RunResult (List UnitRow))
          else ⟨st2, log2, Except.ok (sortOn (fun r => r.unitid) rows2)⟩).result
          = Except.ok rows := h
      by_cases hemp : (groupByParent env.unitSess (sortNat ids)).isEmpty = true
      · rw [if_pos hemp] at h2
        simp at h2
      · rw [if_neg hemp] at h2
        have h3 : Except.ok (sortOn (fun r : UnitRow => r.unitid) rows2)
            = Except.ok rows := h2
        injection h3 with h3
        subst h3
        exact sortOn_sorted _ _

/-- Witness for C6 (amended) at a concrete instance. -/
theorem claim_C6_amended_witness :
    List.Sorted (keyLe2 (fun r : BehRow => r.sessid) (fun r => r.trial))
      [⟨201, 5, 6, 1, 0⟩] := by
  refine (claim_C6_amended cEnvA cSt0 [201, 202] false).1 [⟨201, 5, 6, 1, 0⟩] ?_
  rfl

/-- C7: an id for which the remote fetch returns zero rows contributes
nothing and the call does not raise: (i) `get_behavior_data` returns
normally whenever every behavioral fetch returns (possibly zero) rows;
(ii) ids with no parent session remotely are excluded from every session
group of the unit/fp pipeline; (iii) concretely, `get([201,202])` where only
session 201 exists remotely returns the one-row table for 201. -/
theorem claim_C7_partial_availability (env : RemoteEnv) (st : DBState)
    (ids : List Nat) (reload : Bool) (par : Nat → Option Nat) :
    ((∀ s, (env.fetchSess s).isOk = true) →
      (getBehaviorData env st ids reload).result.isOk = true) ∧
    (∀ i, par i = none → ∀ p ∈ groupByParent par ids, i ∉ p.2) ∧
    (getBehaviorData cEnvA cSt0 [201, 202] false).result
      = Except.ok [⟨201, 5, 6, 1, 0⟩] := by
  refine ⟨?_, ?_, rfl⟩
  · intro hok
    have hiso : (getBehaviorData env st ids reload).result.isOk
        = (getBehaviorDataLoop env reload (sortNat ids) st emptyLog []).result.isOk := by
      rw [getBehaviorData_unfold]
      rcases getBehaviorDataLoop env reload (sortNat ids) st emptyLog []
        with ⟨st2, log2, res⟩
      cases res with
      | error e => rfl
      | ok beh => rfl
    rw [hiso]
    exact getBehaviorDataLoop_isOk env reload (sortNat ids) st emptyLog [] hok
  · intro i hnone p hp hip
    have h2 := @mem_groupByParent par ids p.1 p.2 (by simpa using hp) i hip
    rw [hnone] at h2
    cases h2.1

/-- Witness for C7 at a concrete instance. -/
theorem claim_C7_partial_availability_witness :
    (getBehaviorData cEnvA cSt0 [201, 202, 999] false).result.isOk = true := by
  refine (claim_C7_partial_availability cEnvA cSt0 [201, 202, 999] false (fun _ => none)).1 ?_
  intro s
  show (if s = 201 then Except.ok [(⟨201, 5, 6, 1, 0⟩ : BehRow)] else Except.ok []).isOk = true
  split <;> rfl

/-- C9 (counterexample): `get_behavior_data` does not deduplicate the
requested ids: requesting session 7 twice returns every row of session 7
twice, unlike the deduplicated request. -/
theorem claim_C9_counterexample :
    ¬ ((getBehaviorData cEnvBeh cSt0 [7, 7] false).result
        = (getBehaviorData cEnvBeh cSt0 [7] false).result) := by
  intro heq
  have h1 : (getBehaviorData cEnvBeh cSt0 [7, 7] false).result
      = Except.ok [⟨7, 5, 6, 1, 0⟩, ⟨7, 5, 6, 1, 0⟩, ⟨7, 5, 6, 2, 0⟩, ⟨7, 5, 6, 2, 0⟩] := rfl
  have h2 : (getBehaviorData cEnvBeh cSt0 [7] false).result
      = Except.ok [⟨7, 5, 6, 1, 0⟩, ⟨7, 5, 6, 2, 0⟩] := rfl
  rw [h1, h2] at heq
  injection heq with heq
  simp at heq

/-- C9 (amended): the requested ids are sorted but not deduplicated.  For
`get_unit_data` the outcome is nevertheless invariant under duplicate (and
reordered) ids — state, returned table and row fetches agree with the
deduplicated request — while `get_behavior_data` duplicates each session's
rows once per occurrence (see the counterexample). -/
theorem claim_C9_amended (env : RemoteEnv) (st : DBState) (reload : Bool)
    (ids ids2 : List Nat) (h : dedupSorted ids = dedupSorted ids2) :
    (getUnitData env st ids reload).state = (getUnitData env st ids2 reload).state ∧
    (getUnitData env st ids reload).result = (getUnitData env st ids2 reload).result ∧
    (getUnitData env st ids reload).log.fetched
      = (getUnitData env st ids2 reload).log.fetched := by
  have hmem : ∀ i : Nat, i ∈ sortNat ids ↔ i ∈ sortNat ids2 := by
    intro i
    rw [mem_sortNat, ← mem_dedupSorted, h, mem_dedupSorted, ← mem_sortNat]
  have hg : groupByParent env.unitSess (sortNat ids)
      = groupByParent env.unitSess (sortNat ids2) :=
    groupByParent_congr _ (by rw [dedupSorted_sortNat, dedupSorted_sortNat, h])
  have hsd : setdiff1d (sortNat ids) (st.localData.units.map (fun r => r.unitid))
      = setdiff1d (sortNat ids2) (st.localData.units.map (fun r => r.unitid)) :=
    @setdiff1d_congr (sortNat ids) (sortNat ids2)
      (st.localData.units.map (fun r => r.unitid))
      (by rw [dedupSorted_sortNat, dedupSorted_sortNat, h])
  have hmiss : ∀ i : Nat,
      (i ∈ (if reload then sortNat ids
        else setdiff1d (sortNat ids) (st.localData.units.map (fun r => r.unitid)))) ↔
      (i ∈ (if reload then sortNat ids2
        else setdiff1d (sortNat ids2) (st.localData.units.map (fun r => r.unitid)))) := by
    intro i
    cases reload with
    | false =>
      simp only [Bool.false_eq_true, if_false]
      rw [hsd]
    | true =>
      simp only [if_true]
      exact hmem i
  have hstep1 := getUnitDataLoop_memCongr env reload (sortNat ids) (sortNat ids2)
    (if reload then sortNat ids
      else setdiff1d (sortNat ids) (st.localData.units.map (fun r => r.unitid)))
    (if reload then sortNat ids2
      else setdiff1d (sortNat ids2) (st.localData.units.map (fun r => r.unitid)))
    (groupByParent env.unitSess (sortNat ids)) st ⟨[], [sortNat ids]⟩ [] hmem hmiss
  have hstep2 := getUnitDataLoop_logCongr env reload (sortNat ids2)
    (if reload then sortNat ids2
      else setdiff1d (sortNat ids2) (st.localData.units.map (fun r => r.unitid)))
    (groupByParent env.unitSess (sortNat ids2)) st
    ⟨[], [sortNat ids]⟩ ⟨[], [sortNat ids2]⟩ [] rfl
  have hL : (getUnitDataLoop env reload (sortNat ids)
        (if reload then sortNat ids
          else setdiff1d (sortNat ids) (st.localData.units.map (fun r => r.unitid)))
        (groupByParent env.unitSess (sortNat ids)) st ⟨[], [sortNat ids]⟩ []).state
      = (getUnitDataLoop env reload (sortNat ids2)
        (if reload then sortNat ids2
          else setdiff1d (sortNat ids2) (st.localData.units.map (fun r => r.unitid)))
        (groupByParent env.unitSess (sortNat ids2)) st ⟨[], [sortNat ids2]⟩ []).state ∧
      (getUnitDataLoop env reload (sortNat ids)
        (if reload then sortNat ids
          else setdiff1d (sortNat ids) (st.localData.units.map (fun r => r.unitid)))
        (groupByParent env.unitSess (sortNat ids)) st ⟨[], [sortNat ids]⟩ []).result
      = (getUnitDataLoop env reload (sortNat ids2)
        (if reload then sortNat ids2
          else setdiff1d (sortNat ids2) (st.localData.units.map (fun r => r.unitid)))
        (groupByParent env.unitSess (sortNat ids2)) st ⟨[], [sortNat ids2]⟩ []).result ∧
      (getUnitDataLoop env reload (sortNat ids)
        (if reload then sortNat ids
          else setdiff1d (sortNat ids) (st.localData.units.map (fun r => r.unitid)))
        (groupByParent env.unitSess (sortNat ids)) st ⟨[], [sortNat ids]⟩ []).log.fetched
      = (getUnitDataLoop env reload (sortNat ids2)
        (if reload then sortNat ids2
          else setdiff1d (sortNat ids2) (st.localData.units.map (fun r => r.unitid)))
        (groupByParent env.unitSess (sortNat ids2)) st ⟨[], [sortNat ids2]⟩ []).log.fetched := by
    rw [hstep1, hg]
    exact hstep2
  refine ⟨?_, ?_, ?_⟩
  · rw [getUnitData_state env st ids reload _ rfl, getUnitData_state env st ids2 reload _ rfl]
    exact hL.1
  · rw [getUnitData_result env st ids reload _ rfl, getUnitData_result env st ids2 reload _ rfl,
      hL.2.1, hg]
  · rw [getUnitData_log env st ids reload _ rfl, getUnitData_log env st ids2 reload _ rfl]
    exact hL.2.2

theorem getFpData_state (env : RemoteEnv) (st : DBState) (ids : List Nat)
    (reload : Bool) (missing : List Nat)
    (hmiss : missing = if reload then sortNat ids
      else setdiff1d (sortNat ids) (st.localData.fpData.map (fun r => r.fpid))) :
    (getFpData env st ids reload).state
      = (getFpDataLoop env reload (sortNat ids) missing
          (groupByParent env.fpSess (sortNat ids)) st ⟨[], [sortNat ids]⟩ []).state := by
  rw [getFpData_unfold env st ids reload missing hmiss]
  rcases getFpDataLoop env reload (sortNat ids) missing
      (groupByParent env.fpSess (sortNat ids)) st ⟨[], [sortNat ids]⟩ []
    with ⟨st2, log2, res⟩
  cases res with
  | error e => rfl
  | ok rows =>
    split
    · rename_i st3 log3 rows3 heq
      injection heq with h1 h2 h3
      injection h3 with h3
      subst h1
      subst h2
      subst h3
      split <;> rfl
    · rename_i hno
      exact absurd rfl (hno st2 log2 rows)

/-- C3 (amended): for `get_unit_data` and `get_fp_data` with `reload=False`
and fetchers that return only requested ids at most once each, the units and
fp index tables each keep at most one row per id across the call; a
`reload=True` call on an already-cached id appends a second copy of that id
(see the counterexample). -/
theorem claim_C3_amended (env : RemoteEnv) (st : DBState) (ids : List Nat)
    (honest : honestUnitFetch env) (honestF : honestFpFetch env)
    (hnd : (st.localData.units.map (fun r => r.unitid)).Nodup)
    (hndF : (st.localData.fpData.map (fun r => r.fpid)).Nodup) :
    ((getUnitData env st ids false).state.localData.units.map
      (fun r => r.unitid)).Nodup ∧
    ((getFpData env st ids false).state.localData.fpData.map
      (fun r => r.fpid)).Nodup := by
  constructor
  · rw [getUnitData_state env st ids false
      (setdiff1d (sortNat ids) (st.localData.units.map (fun r => r.unitid))) (by simp)]
    refine getUnitDataLoop_units_nodup env false (sortNat ids) _ _ st ⟨[], [sortNat ids]⟩ []
      honest (groupByParent_pairwise _ _) hnd ?_
    intro p hp i hi
    exact (mem_setdiff1d.mp (mem_intersect1d.mp hi).2).2
  · rw [getFpData_state env st ids false
      (setdiff1d (sortNat ids) (st.localData.fpData.map (fun r => r.fpid))) (by simp)]
    refine getFpDataLoop_fpData_nodup env false (sortNat ids) _ _ st ⟨[], [sortNat ids]⟩ []
      honestF (groupByParent_pairwise _ _) hndF ?_
    intro p hp i hi
    exact (mem_setdiff1d.mp (mem_intersect1d.mp hi).2).2

/-- Witness for C3 (amended) at a concrete instance. -/
theorem claim_C3_amended_witness :
    ((getUnitData cEnvA cStA [101, 103] false).state.localData.units.map
      (fun r => r.unitid)).Nodup ∧
    ((getFpData cEnvA cStA [101, 103] false).state.localData.fpData.map
      (fun r => r.fpid)).Nodup := by
  refine claim_C3_amended cEnvA cStA [101, 103] ?_ ?_ (by decide) (by decide)
  · intro idsq rows hndq h
    have h2 : Except.ok (idsq.map (fun i =>
        (⟨i, 5, if i = 103 then 20 else 10, 2000000, 3000000, 1000 + i⟩ : UnitRow)))
        = Except.ok rows := h
    injection h2 with h2
    subst h2
    have hmapids : ∀ l : List Nat, (l.map (fun i : Nat =>
        (⟨i, 5, if i = 103 then 20 else 10, 2000000, 3000000, 1000 + i⟩ : UnitRow))).map
        (fun r => r.unitid) = l := by
      intro l
      induction l with
      | nil => rfl
      | cons a t ih => simp [ih]
    constructor
    · rw [hmapids]
      exact fun x hx => hx
    · rw [hmapids]
      exact hndq
  · intro idsq rows hndq h
    have h2 : Except.ok (idsq.map (fun i => (⟨i, 5, 30, 2, 40 + i⟩ : FpRaw)))
        = Except.ok rows := h
    injection h2 with h2
    subst h2
    have hmapids : ∀ l : List Nat, (l.map (fun i : Nat =>
        (⟨i, 5, 30, 2, 40 + i⟩ : FpRaw))).map (fun r => r.id) = l := by
      intro l
      induction l with
      | nil => rfl
      | cons a t ih => simp [ih]
    constructor
    · rw [hmapids]
      exact fun x hx => hx
    · rw [hmapids]
      exact hndq

theorem getFpData_result (env : RemoteEnv) (st : DBState) (ids : List Nat)
    (reload : Bool) (missing : List Nat)
    (hmiss : missing = if reload then sortNat ids
      else setdiff1d (sortNat ids) (st.localData.fpData.map (fun r => r.fpid))) :
    (getFpData env st ids reload).result
      = (match (getFpDataLoop env reload (sortNat ids) missing
            (groupByParent env.fpSess (sortNat ids)) st ⟨[], [sortNat ids]⟩ []).result with
        | Except.error e => Except.error e
        | Except.ok rows =>
          if (groupByParent env.fpSess (sortNat ids)).isEmpty
          then Except.error DbErr.keyError
          else Except.ok rows) := by
  rw [getFpData_unfold env st ids reload missing hmiss]
  rcases getFpDataLoop env reload (sortNat ids) missing
      (groupByParent env.fpSess (sortNat ids)) st ⟨[], [sortNat ids]⟩ []
    with ⟨st2, log2, res⟩
  cases res with
  | error e => rfl
  | ok rows =>
    exact apply_ite (fun rr : RunResult (List FpRow) => rr.result) _ _ _

/-- C8 (counterexample): requesting session 7 twice from an empty local
database updates the in-memory sessions index differently depending on
`save_locally`: with saving on, the second iteration reads the just-written
partition and the index gets one row; with saving off, the session is
fetched twice and the index gets two rows. -/
theorem claim_C8_counterexample :
    ¬ ((getBehaviorData cEnvBeh cSt0NoSave [7, 7] false).state.localData
        = (getBehaviorData cEnvBeh cSt0 [7, 7] false).state.localData) := by
  decide

/-- C8 (amended): with `save_locally=False` no partition file and no index
file is written by any of the three get operations, and the in-memory index
tables are updated exactly as in the `save_locally=True` run for
`get_unit_data` and `get_fp_data` on any request and for
`get_behavior_data` on duplicate-free requests; duplicated session ids make
the behavioral runs diverge (see the counterexample). -/
theorem claim_C8_amended (env : RemoteEnv) (ids : List Nat) (reload : Bool)
    (stF stT : DBState)
    (hdisk : stF.disk = stT.disk) (hld : stF.localData = stT.localData)
    (hF : stF.saveLocally = false) :
    (getBehaviorData env stF ids reload).state.disk = stF.disk ∧
    (getUnitData env stF ids reload).state.disk = stF.disk ∧
    (getFpData env stF ids reload).state.disk = stF.disk ∧
    (getUnitData env stF ids reload).state.localData
      = (getUnitData env stT ids reload).state.localData ∧
    (getUnitData env stF ids reload).result = (getUnitData env stT ids reload).result ∧
    (getFpData env stF ids reload).state.localData
      = (getFpData env stT ids reload).state.localData ∧
    (getFpData env stF ids reload).result = (getFpData env stT ids reload).result ∧
    (ids.Nodup →
      (getBehaviorData env stF ids reload).state.localData
        = (getBehaviorData env stT ids reload).state.localData ∧
      (getBehaviorData env stF ids reload).result
        = (getBehaviorData env stT ids reload).result) := by
  have hmU : (if reload then sortNat ids
        else setdiff1d (sortNat ids) (stF.localData.units.map (fun r => r.unitid)))
      = (if reload then sortNat ids
        else setdiff1d (sortNat ids) (stT.localData.units.map (fun r => r.unitid))) := by
    rw [hld]
  have hmF : (if reload then sortNat ids
        else setdiff1d (sortNat ids) (stF.localData.fpData.map (fun r => r.fpid)))
      = (if reload then sortNat ids
        else setdiff1d (sortNat ids) (stT.localData.fpData.map (fun r => r.fpid))) := by
    rw [hld]
  have hcongrU := getUnitDataLoop_saveCongr env reload (sortNat ids)
    (if reload then sortNat ids
      else setdiff1d (sortNat ids) (stT.localData.units.map (fun r => r.unitid)))
    (groupByParent env.unitSess (sortNat ids)) stF stT ⟨[], [sortNat ids]⟩ []
    ((groupByParent_fst_nodup env.unitSess (sortNat ids)))
    hld hF (fun p _ => by rw [hdisk])
  have hcongrF := getFpDataLoop_saveCongr env reload (sortNat ids)
    (if reload then sortNat ids
      else setdiff1d (sortNat ids) (stT.localData.fpData.map (fun r => r.fpid)))
    (groupByParent env.fpSess (sortNat ids)) stF stT ⟨[], [sortNat ids]⟩ []
    ((groupByParent_fst_nodup env.fpSess (sortNat ids)))
    hld hF (fun p _ => by rw [hdisk])
  refine ⟨?_, ?_, ?_, ?_, ?_, ?_, ?_, ?_⟩
  · rw [getBehaviorData_state]
    exact (getBehaviorDataLoop_disk_noSave env reload (sortNat ids) stF emptyLog [] hF).1
  · rw [getUnitData_state env stF ids reload _ rfl]
    exact (getUnitDataLoop_disk_noSave env reload (sortNat ids) _ _ stF
      ⟨[], [sortNat ids]⟩ [] hF).1
  · rw [getFpData_state env stF ids reload _ rfl]
    exact (getFpDataLoop_disk_noSave env reload (sortNat ids) _ _ stF
      ⟨[], [sortNat ids]⟩ [] hF).1
  · rw [getUnitData_state env stF ids reload
      (if reload then sortNat ids
        else setdiff1d (sortNat ids) (stT.localData.units.map (fun r => r.unitid)))
      (by rw [hld]),
      getUnitData_state env stT ids reload _ rfl]
    exact hcongrU.1
  · rw [getUnitData_result env stF ids reload
      (if reload then sortNat ids
        else setdiff1d (sortNat ids) (stT.localData.units.map (fun r => r.unitid)))
      (by rw [hld]),
      getUnitData_result env stT ids reload _ rfl, hcongrU.2.2]
  · rw [getFpData_state env stF ids reload
      (if reload then sortNat ids
        else setdiff1d (sortNat ids) (stT.localData.fpData.map (fun r => r.fpid)))
      (by rw [hld]),
      getFpData_state env stT ids reload _ rfl]
    exact hcongrF.1
  · rw [getFpData_result env stF ids reload
      (if reload then sortNat ids
        else setdiff1d (sortNat ids) (stT.localData.fpData.map (fun r => r.fpid)))
      (by rw [hld]),
      getFpData_result env stT ids reload _ rfl, hcongrF.2.2]
  · intro hnd
    have hnd2 : (sortNat ids).Nodup := ((sortOn_perm _ _).nodup_iff).mpr hnd
    have hcongrB := getBehaviorDataLoop_saveCongr env reload (sortNat ids) stF stT
      emptyLog [] hnd2 hld hF (fun s _ => by rw [hdisk])
    constructor
    · rw [getBehaviorData_state, getBehaviorData_state]
      exact hcongrB.1
    · rw [getBehaviorData_unfold, getBehaviorData_unfold]
      rcases hB1 : getBehaviorDataLoop env reload (sortNat ids) stF emptyLog []
        with ⟨s1, g1, r1⟩
      rcases hB2 : getBehaviorDataLoop env reload (sortNat ids) stT emptyLog []
        with ⟨s2, g2, r2⟩
      have hr12 : r1 = r2 := by
        have h3 := hcongrB.2.2
        rw [hB1, hB2] at h3
        exact h3
      subst hr12
      cases r1 with
      | error e => rfl
      | ok beh => rfl

/-- Witness for C8 (amended) at a concrete instance. -/
theorem claim_C8_amended_witness :
    (getBehaviorData cEnvBeh cSt0NoSave [7] false).state.localData
      = (getBehaviorData cEnvBeh cSt0 [7] false).state.localData :=
  ((claim_C8_amended cEnvBeh [7] false cSt0NoSave cSt0 rfl rfl rfl).2.2.2.2.2.2.2
    (by decide)).1

/-- Witness for C9 (amended) at a concrete instance. -/
theorem claim_C9_amended_witness :
    (getUnitData cEnvA cStA [103, 101, 103] false).result
      = (getUnitData cEnvA cStA [101, 103] false).result :=
  (claim_C9_amended cEnvA cStA false [103, 101, 103] [101, 103] (by decide)).2.1

/-- C4: if the per-session processing of `get_unit_data` succeeds for the
session groups `gs1` and the remote fetch for the next session `sN` then
fails, the whole call aborts with that error and its final state is exactly
the state reached after `gs1` — the partitions and index entries of the
earlier sessions are committed (their fetched ids are recorded in the index
and a subsequent identical call fetches nothing that is recorded), while
session `sN`'s partition and its index entries are unchanged. -/
theorem claim_C4_crash_safe (env : RemoteEnv) (st : DBState) (ids missing : List Nat)
    (gs1 gs2 : List (Nat × List Nat)) (sN : Nat) (gN : List Nat) (e : DbErr)
    (st1 : DBState) (log1 : FetchLog) (acc1 : List UnitRow)
    (hexact : exactUnitFetch env)
    (hmiss : missing = setdiff1d (sortNat ids) (st.localData.units.map (fun r => r.unitid)))
    (hgroups : groupByParent env.unitSess (sortNat ids) = gs1 ++ (sN, gN) :: gs2)
    (hpre : getUnitDataLoop env false (sortNat ids) missing gs1 st ⟨[], [sortNat ids]⟩ []
      = ⟨st1, log1, Except.ok acc1⟩)
    (hne : ¬ (intersect1d gN missing).isEmpty = true)
    (hfail : env.fetchUnits (intersect1d gN missing) = Except.error e) :
    (getUnitData env st ids false).state = st1 ∧
    (getUnitData env st ids false).result = Except.error e ∧
    readFile st1.disk.unitFiles sN = readFile st.disk.unitFiles sN ∧
    (∀ i, i ∈ intersect1d gN missing →
      i ∉ st1.localData.units.map (fun r => r.unitid)) ∧
    (∀ p ∈ gs1, ∀ i, i ∈ intersect1d p.2 missing →
      i ∈ st1.localData.units.map (fun r => r.unitid)) ∧
    (∀ l ∈ (getUnitData env st1 ids false).log.fetched, ∀ i ∈ l,
      i ∉ st1.localData.units.map (fun r => r.unitid)) := by
  have honest : honestUnitFetch env := by
    intro idsq rows hnd hfet
    rw [hexact idsq rows hnd hfet]
    exact ⟨fun x hx => hx, hnd⟩
  have hloopAll : getUnitDataLoop env false (sortNat ids) missing
      (gs1 ++ (sN, gN) :: gs2) st ⟨[], [sortNat ids]⟩ []
      = ⟨st1, { log1 with fetched := log1.fetched ++ [intersect1d gN missing] },
          Except.error e⟩ := by
    rw [getUnitDataLoop_append_ok env false (sortNat ids) missing gs1 ((sN, gN) :: gs2)
      st ⟨[], [sortNat ids]⟩ [] hpre]
    exact getUnitDataLoop_cons_error env false (sortNat ids) missing sN gN gs2 st1 log1 acc1
      (unitSessStep_fetchError env false (sortNat ids) missing sN gN st1 log1 hne hfail)
  have hsN : sN ∉ gs1.map Prod.fst := by
    have hfstnd := groupByParent_fst_nodup env.unitSess (sortNat ids)
    rw [hgroups, List.map_append, List.map_cons, List.nodup_append] at hfstnd
    intro hmem
    exact hfstnd.2.2 hmem (List.mem_cons_self _ _)
  have hpairwise := groupByParent_pairwise env.unitSess (sortNat ids)
  rw [hgroups, List.pairwise_append] at hpairwise
  refine ⟨?_, ?_, ?_, ?_, ?_, ?_⟩
  · rw [getUnitData_state env st ids false missing (by simp [hmiss]), hgroups, hloopAll]
  · rw [getUnitData_result env st ids false missing (by simp [hmiss]), hgroups, hloopAll]
  · have h3 := getUnitDataLoop_files env false (sortNat ids) missing gs1 st
      ⟨[], [sortNat ids]⟩ [] sN hsN
    rw [hpre] at h3
    exact h3
  · intro i hi hmem1
    have hiM := (mem_intersect1d.mp hi).2
    have hiN := (mem_intersect1d.mp hi).1
    have hnotidx : i ∉ st.localData.units.map (fun r => r.unitid) := by
      rw [hmiss] at hiM
      exact (mem_setdiff1d.mp hiM).2
    have hmem2 : i ∈ (getUnitDataLoop env false (sortNat ids) missing gs1 st
        ⟨[], [sortNat ids]⟩ []).state.localData.units.map (fun r => r.unitid) := by
      rw [hpre]
      exact hmem1
    rcases getUnitDataLoop_units_sub env false (sortNat ids) missing gs1 st
        ⟨[], [sortNat ids]⟩ [] honest hmem2 with h4 | ⟨p, hp, hip⟩
    · exact hnotidx h4
    · have hip2 : i ∈ p.2 := (mem_intersect1d.mp hip).1
      exact hpairwise.2.2 p hp (sN, gN) (List.mem_cons_self (sN, gN) gs2) i hip2 hiN
  · intro p hp i hi
    exact getUnitDataLoop_adds env false (sortNat ids) missing gs1 st
      ⟨[], [sortNat ids]⟩ [] hexact hpre p hp i hi
  · exact getUnitData_fetched_missing env st1 ids

/-- Witness for C4 at a concrete instance: units 101/102 (session 10) are
cached, unit 103 (session 20) is missing, and the fetch for session 20
fails; the call aborts with the error, leaving the state as it was after
session 10's processing. -/
theorem claim_C4_crash_safe_witness :
    (getUnitData cEnvFail cStA [101, 102, 103] false).state = cStA ∧
    (getUnitData cEnvFail cStA [101, 102, 103] false).result
      = Except.error DbErr.fetchErr := by
  have hexact : exactUnitFetch cEnvFail := by
    intro idsq rows hnd h
    have hmapids : ∀ l : List Nat, (l.map (fun i : Nat =>
        (⟨i, 5, if i = 103 then 20 else 10, 2000000, 3000000, 1000 + i⟩ : UnitRow))).map
        (fun r => r.unitid) = l := by
      intro l
      induction l with
      | nil => rfl
      | cons a t ih => simp [ih]
    by_cases h103 : 103 ∈ idsq
    · have h2 : (Except.error DbErr.fetchErr : Except DbErr (List UnitRow))
          = Except.ok rows := by
        rw [← h]
        simp [cEnvFail, h103]
      simp at h2
    · have h2 : (Except.ok (idsq.map (fun i : Nat =>
          (⟨i, 5, if i = 103 then 20 else 10, 2000000, 3000000, 1000 + i⟩ : UnitRow)))
            : Except DbErr (List UnitRow))
          = Except.ok rows := by
        rw [← h]
        simp [cEnvFail, h103]
      injection h2 with h2
      subst h2
      rw [hmapids]
  have h := claim_C4_crash_safe cEnvFail cStA [101, 102, 103] [103]
    [(10, [101, 102])] [] 20 [103] DbErr.fetchErr cStA ⟨[], [[101, 102, 103]]⟩
    [⟨101, 5, 10, 2, 3, 101⟩, ⟨102, 5, 10, 2, 3, 102⟩]
    hexact (by decide) (by decide) rfl (by decide) rfl
  exact ⟨h.1, h.2.1⟩

theorem sortNat_singleton (a : Nat) : sortNat [a] = [a] := rfl

theorem dedupSorted_singleton (a : Nat) : dedupSorted [a] = [a] := by
  unfold dedupSorted
  rw [sortNat_singleton]
  simp

theorem intersect1d_self_singleton (a : Nat) : intersect1d [a] [a] = [a] := by
  unfold intersect1d
  rw [dedupSorted_singleton]
  simp

theorem groupByParent_singleton (par : Nat → Option Nat) (i s : Nat)
    (h : par i = some s) : groupByParent par [i] = [(s, [i])] := by
  unfold groupByParent
  rw [dedupSorted_singleton]
  simp [h, dedupSorted_singleton]

/-- C5: reload replaces rather than duplicates, for unit data and fp data
alike: if id `i` lives in session `s`, the partition for `s` exists, and the
fresh fetch returns the single row `r` for `i`, then after
`get([i], reload=True)` the partition for `s` contains exactly one row with
id `i` — the freshly fetched, re-formatted row — and the partition is
re-sorted by id. -/
theorem claim_C5_reload_replaces (env : RemoteEnv) (st : DBState)
    (i s : Nat) (r : UnitRow) (old : List UnitRow)
    (j t : Nat) (q : FpRaw) (oldF : List FpRow)
    (hsave : st.saveLocally = true)
    (hsessU : env.unitSess i = some s)
    (hfileU : readFile st.disk.unitFiles s = some old)
    (hfetchU : env.fetchUnits [i] = Except.ok [r])
    (hrid : r.unitid = i)
    (hsessF : env.fpSess j = some t)
    (hfileF : readFile st.disk.fpFiles t = some oldF)
    (hfetchF : env.fetchFp [j] = Except.ok [q])
    (hqid : q.id = j) :
    (∃ part, readFile (getUnitData env st [i] true).state.disk.unitFiles s = some part ∧
      part.filter (fun x => decide (x.unitid = i)) = [formatUnitRow r] ∧
      List.Sorted (keyLe (fun x : UnitRow => x.unitid)) part) ∧
    (∃ part, readFile (getFpData env st [j] true).state.disk.fpFiles t = some part ∧
      part.filter (fun x => decide (x.fpid = j)) = [formatFpRow q] ∧
      List.Sorted (keyLe (fun x : FpRow => x.fpid)) part) := by
  constructor
  · have hstepU : ∃ part, unitSessStep env true [i] [i] s [i] st ⟨[], [[i]]⟩
        = (updateLocalUnits { st with disk := { st.disk with unitFiles := writeFile st.disk.unitFiles s part } } [formatUnitRow r], ⟨[[i]], [[i]]⟩, Except.ok (part.filter (fun x => decide (x.unitid ∈ ([i] : List Nat))))) ∧
        part = sortOn (fun x : UnitRow => x.unitid) ((old.filter (fun x => decide (x.unitid ∉ ([formatUnitRow r].map (fun n => n.unitid))))) ++ [formatUnitRow r]) := by
      refine ⟨_, ?_, rfl⟩
      simp only [unitSessStep, intersect1d_self_singleton, hfileU, hfetchU, hsave,
        List.isEmpty_cons, Bool.false_eq_true, if_false, if_true, List.map_cons,
        List.map_nil, List.nil_append]
    obtain ⟨part, hstep, hpartdef⟩ := hstepU
    have hloop : getUnitDataLoop env true [i] [i] [(s, [i])] st ⟨[], [[i]]⟩ []
        = ⟨updateLocalUnits { st with disk := { st.disk with unitFiles := writeFile st.disk.unitFiles s part } } [formatUnitRow r], ⟨[[i]], [[i]]⟩, Except.ok ([] ++ part.filter (fun x => decide (x.unitid ∈ ([i] : List Nat))))⟩ := by
      rw [getUnitDataLoop_cons_ok env true [i] [i] s [i] [] st ⟨[], [[i]]⟩ [] hstep]
      rfl
    have hstate : (getUnitData env st [i] true).state
        = updateLocalUnits { st with disk := { st.disk with unitFiles := writeFile st.disk.unitFiles s part } } [formatUnitRow r] := by
      rw [getUnitData_state env st [i] true (sortNat [i]) (by simp), sortNat_singleton,
        groupByParent_singleton env.unitSess i s hsessU, hloop]
    have hfr : (formatUnitRow r).unitid = i := hrid
    refine ⟨part, ?_, ?_, by rw [hpartdef]; exact sortOn_sorted _ _⟩
    · rw [hstate, updateLocalUnits_unitFiles]
      exact readFile_writeFile_same _ _ _
    · rw [hpartdef]
      have hperm := (sortOn_perm (fun x : UnitRow => x.unitid)
          ((old.filter (fun x => decide (x.unitid ∉
            ([formatUnitRow r].map (fun n => n.unitid))))) ++ [formatUnitRow r])).filter
        (fun x => decide (x.unitid = i))
      rw [List.filter_append] at hperm
      have hold : (old.filter (fun x => decide (x.unitid ∉
          ([formatUnitRow r].map (fun n => n.unitid))))).filter
          (fun x => decide (x.unitid = i)) = [] := by
        rw [List.filter_eq_nil_iff]
        intro a ha
        rw [List.mem_filter] at ha
        have h1 := ha.2
        simp only [List.map_cons, List.map_nil, decide_eq_true_iff,
          List.mem_singleton] at h1
        simp only [decide_eq_true_iff]
        intro h2
        exact h1 (by rw [h2, hfr])
      have hfr2 : ([formatUnitRow r]).filter (fun x => decide (x.unitid = i))
          = [formatUnitRow r] := by
        simp [hfr]
      rw [hold, hfr2, List.nil_append] at hperm
      exact List.perm_singleton.mp hperm
  · have hstepF : ∃ part, fpSessStep env true [j] [j] t [j] st ⟨[], [[j]]⟩
        = (updateLocalFp { st with disk := { st.disk with fpFiles := writeFile st.disk.fpFiles t part } } [formatFpRow q], ⟨[[j]], [[j]]⟩, Except.ok (part.filter (fun x => decide (x.fpid ∈ ([j] : List Nat))))) ∧
        part = sortOn (fun x : FpRow => x.fpid) ((oldF.filter (fun x => decide (x.fpid ∉ ([formatFpRow q].map (fun n => n.fpid))))) ++ [formatFpRow q]) := by
      refine ⟨_, ?_, rfl⟩
      simp only [fpSessStep, intersect1d_self_singleton, hfileF, hfetchF, hsave,
        List.isEmpty_cons, Bool.false_eq_true, if_false, if_true, List.map_cons,
        List.map_nil, List.nil_append]
    obtain ⟨part, hstep, hpartdef⟩ := hstepF
    have hloop : getFpDataLoop env true [j] [j] [(t, [j])] st ⟨[], [[j]]⟩ []
        = ⟨updateLocalFp { st with disk := { st.disk with fpFiles := writeFile st.disk.fpFiles t part } } [formatFpRow q], ⟨[[j]], [[j]]⟩, Except.ok ([] ++ part.filter (fun x => decide (x.fpid ∈ ([j] : List Nat))))⟩ := by
      rw [getFpDataLoop_cons_ok env true [j] [j] t [j] [] st ⟨[], [[j]]⟩ [] hstep]
      rfl
    have hstate : (getFpData env st [j] true).state
        = updateLocalFp { st with disk := { st.disk with fpFiles := writeFile st.disk.fpFiles t part } } [formatFpRow q] := by
      rw [getFpData_state env st [j] true (sortNat [j]) (by simp), sortNat_singleton,
        groupByParent_singleton env.fpSess j t hsessF, hloop]
    have hfr : (formatFpRow q).fpid = j := hqid
    refine ⟨part, ?_, ?_, by rw [hpartdef]; exact sortOn_sorted _ _⟩
    · rw [hstate, updateLocalFp_fpFiles]
      exact readFile_writeFile_same _ _ _
    · rw [hpartdef]
      have hperm := (sortOn_perm (fun x : FpRow => x.fpid)
          ((oldF.filter (fun x => decide (x.fpid ∉
            ([formatFpRow q].map (fun n => n.fpid))))) ++ [formatFpRow q])).filter
        (fun x => decide (x.fpid = j))
      rw [List.filter_append] at hperm
      have hold : (oldF.filter (fun x => decide (x.fpid ∉
          ([formatFpRow q].map (fun n => n.fpid))))).filter
          (fun x => decide (x.fpid = j)) = [] := by
        rw [List.filter_eq_nil_iff]
        intro a ha
        rw [List.mem_filter] at ha
        have h1 := ha.2
        simp only [List.map_cons, List.map_nil, decide_eq_true_iff,
          List.mem_singleton] at h1
        simp only [decide_eq_true_iff]
        intro h2
        exact h1 (by rw [h2, hfr])
      have hfr2 : ([formatFpRow q]).filter (fun x => decide (x.fpid = j))
          = [formatFpRow q] := by
        simp [hfr]
      rw [hold, hfr2, List.nil_append] at hperm
      exact List.perm_singleton.mp hperm

/-- Witness for C5 at a concrete instance: unit 101 and fp recording 7 are
cached and reloaded. -/
theorem claim_C5_reload_replaces_witness :
    (∃ part, readFile (getUnitData cEnvA cStA [101] true).state.disk.unitFiles 10
        = some part ∧
      part.filter (fun x => decide (x.unitid = 101))
        = [formatUnitRow ⟨101, 5, 10, 2000000, 3000000, 1101⟩] ∧
      List.Sorted (keyLe (fun x : UnitRow => x.unitid)) part) ∧
    (∃ part, readFile (getFpData cEnvA cStA [7] true).state.disk.fpFiles 30
        = some part ∧
      part.filter (fun x => decide (x.fpid = 7)) = [formatFpRow ⟨7, 5, 30, 2, 47⟩] ∧
      List.Sorted (keyLe (fun x : FpRow => x.fpid)) part) :=
  claim_C5_reload_replaces cEnvA cStA 101 10 ⟨101, 5, 10, 2000000, 3000000, 1101⟩
    [⟨101, 5, 10, 2, 3, 101⟩, ⟨102, 5, 10, 2, 3, 102⟩]
    7 30 ⟨7, 5, 30, 2, 47⟩ [⟨7, 5, 30, 2, Side.left, 7⟩]
    rfl (by decide) rfl rfl rfl (by decide) rfl rfl rfl

end HanksDB